import Mathlib

/-!
# Service binders of the crossplane service broker

A shallow embedding of `pkg/crossplane/service_generic.go` and
`pkg/crossplane/service_mariadb.go`, with the library calls they make
(`encoding/json`, `fmt`, `strconv`, `strings`, `apiresponses`) modelled next to
them, and the properties of the five binder operations stated over it.
-/

set_option autoImplicit false
set_option exponentiation.threshold 2048
set_option maxRecDepth 100000

namespace crossplane

/-! ## Go errors -/

/-- Go `error` values met by the binders: the two error types of `encoding/json`,
errors built by `errors.New` and `fmt.Errorf`, the `*apiresponses.FailureResponse`
of the broker API, and errors of any other type, known by type name and text. -/
inductive GoError where
  /-- `*json.SyntaxError`: `checkValid` rejected the bytes. -/
  | syntaxError (msg : String)
  /-- `*json.UnmarshalTypeError`: a JSON value does not fit the Go type. -/
  | unmarshalTypeError (value : String) (goType : String)
  /-- `errors.New(msg)`, or `fmt.Errorf` without `%w`. -/
  | plain (msg : String)
  /-- `fmt.Errorf` with one `%w` operand: the formatted text, and the operand
  that `errors.Unwrap` gives back. -/
  | wrapError (msg : String) (err : GoError)
  /-- `*apiresponses.FailureResponse`: the embedded error and the four fields
  `statusCode`, `loggerAction`, `emptyResponse`, `errorKey`. -/
  | failureResponse (err : GoError) (statusCode : Int) (loggerAction : String)
      (emptyResponse : Bool) (errorKey : String)
  /-- An error of another type (of the resource store: network, authorisation,
  a cancelled context, ...). -/
  | foreign (typeName : String) (msg : String)
  deriving DecidableEq, Repr

/-- The `Error()` method. -/
def GoError.Error : GoError → String
  | .syntaxError msg => msg
  | .unmarshalTypeError value goType =>
      "json: cannot unmarshal " ++ value ++ " into Go value of type " ++ goType
  | .plain msg => msg
  | .wrapError msg _ => msg
  | .failureResponse err _ _ _ _ => err.Error
  | .foreign _ msg => msg

/-- The `errors.Unwrap` function. -/
def GoError.Unwrap : GoError → Option GoError
  | .wrapError _ err => some err
  | _ => none

/-- The call `fmt.Errorf(format ++ "%w", err)` for a format without other verbs. -/
def Errorf_w (text : String) (err : GoError) : GoError :=
  .wrapError (text ++ err.Error) err

/-! ## JSON documents and their decoding into `interface{}` -/

/-- A JSON value as the scanner of `encoding/json` delimits it. A number keeps
its literal text. -/
inductive JSON where
  | null
  | bool (b : Bool)
  | number (lit : String)
  | string (s : String)
  | array (elems : List JSON)
  | object (members : List (String × JSON))
  deriving Repr

/-- The type `json.RawMessage`, a byte string, represented by what `checkValid`
makes of the bytes: a syntax error (with its text), or one JSON value. -/
inductive RawMessage where
  | invalid (msg : String)
  | valid (doc : JSON)
  deriving Repr

/-- Values of Go type `interface{}` that `json.Unmarshal` produces. A `float64`
is represented by the number literal it was converted from. -/
inductive GoAny where
  | nil
  | bool (b : Bool)
  | float64 (lit : String)
  | string (s : String)
  | slice (elems : List GoAny)
  | map (entries : List (String × GoAny))
  deriving Repr

/-- Entries of a non-nil Go `map[string]interface{}`, each key once. -/
abbrev Entries := List (String × GoAny)

/-- A Go `map[string]interface{}`: `none` is the nil map. -/
abbrev GoMap := Option Entries

/-- The assignment `m[k] = v` on a non-nil map. -/
def Entries.set : Entries → String → GoAny → Entries
  | [], k, v => [(k, v)]
  | (k', v') :: rest, k, v =>
      if k' = k then (k, v) :: rest else (k', v') :: Entries.set rest k v

/-- The two-valued read `v, ok := m[k]`. -/
def Entries.get? : Entries → String → Option GoAny
  | [], _ => none
  | (k', v') :: rest, k => if k' = k then some v' else Entries.get? rest k

/-- The read `m[k]`; a missing key, and any key of a nil map, reads as nil. -/
def GoMap.index (m : GoMap) (k : String) : GoAny :=
  match m with
  | none => .nil
  | some es => (es.get? k).getD .nil

/-- The comparison `v == nil` of an `interface{}` value. -/
def GoAny.isNil : GoAny → Bool
  | .nil => true
  | _ => false

/-- Reads decimal digits, accumulating their value and counting them. -/
def readDigits : Nat → Nat → List Char → Nat × Nat × List Char
  | acc, n, c :: cs =>
      if c.isDigit then readDigits (acc * 10 + (c.toNat - 48)) (n + 1) cs else (acc, n, c :: cs)
  | acc, n, [] => (acc, n, [])

/-- The magnitude of a JSON number literal as `mant * 10 ^ exp10`. -/
def decimalOf (lit : String) : Nat × Int :=
  let cs := match lit.data with
    | '-' :: r => r
    | r => r
  let (ip, _, r1) := readDigits 0 0 cs
  let (mant, fracLen, r2) := match r1 with
    | '.' :: r => readDigits ip 0 r
    | r => (ip, 0, r)
  let e : Int := match r2 with
    | _ :: '-' :: d => - ((readDigits 0 0 d).1 : Int)
    | _ :: '+' :: d => ((readDigits 0 0 d).1 : Int)
    | _ :: d => ((readDigits 0 0 d).1 : Int)
    | [] => 0
  (mant, e - (fracLen : Int))

/-- Whether `strconv.ParseFloat(lit, 64)` succeeds: the value rounds to a finite
`float64`, that is, its magnitude is below `2^1024 - 2^970`. -/
def parseFloatOk (lit : String) : Bool :=
  let (mant, e) := decimalOf lit
  if 0 ≤ e then decide (mant * 10 ^ e.toNat < 2 ^ 1024 - 2 ^ 970)
  else decide (mant < (2 ^ 1024 - 2 ^ 970) * 10 ^ (-e).toNat)

/-- First saved error: `saveError` keeps the error it already has. -/
def firstError : Option GoError → Option GoError → Option GoError
  | some e, _ => some e
  | none, e => e

mutual
/-- The decoder's `valueInterface`: a JSON value as an `interface{}`, and the
error saved on the way. A number outside `float64` decodes to nil and saves an
`UnmarshalTypeError`; decoding goes on. This is the decoder of `encoding/json`
proper; its v2 rewrite keeps another value for such a number and words the error
otherwise, and fails on it all the same. -/
def valueInterface : JSON → GoAny × Option GoError
  | .null => (.nil, none)
  | .bool b => (.bool b, none)
  | .number lit =>
      if parseFloatOk lit then (.float64 lit, none)
      else (.nil, some (.unmarshalTypeError ("number " ++ lit) "float64"))
  | .string s => (.string s, none)
  | .array elems =>
      let r := arrayInterface elems
      (.slice r.1, r.2)
  | .object members =>
      let r := objectInterface [] members
      (.map r.1, r.2)
/-- The decoder's `arrayInterface`: the elements in order. -/
def arrayInterface : List JSON → List GoAny × Option GoError
  | [] => ([], none)
  | x :: xs =>
      let r := valueInterface x
      let rs := arrayInterface xs
      (r.1 :: rs.1, firstError r.2 rs.2)
/-- The decoder's member loop (`objectInterface`, and `object` on a map with
`interface{}` elements): each member is assigned to its key in turn, so of a
repeated key the last member stays. -/
def objectInterface : Entries → List (String × JSON) → Entries × Option GoError
  | m, [] => (m, none)
  | m, (k, x) :: rest =>
      let r := valueInterface x
      let rs := objectInterface (m.set k r.1) rest
      (rs.1, firstError r.2 rs.2)
end

/-- The name `reflect` prints for `map[string]interface{}`. -/
def mapTypeName : String := "map[string]interface \x7b\x7d"

/-- The call `json.Unmarshal(data, &v)` for `v` of type `map[string]interface{}`:
the map afterwards and the error returned. Invalid bytes leave `v` alone; `null`
sets `v` to the nil map without error; an object fills `v` (made first when nil);
any other value leaves `v` alone and is a type error. -/
def Unmarshal (data : RawMessage) (v : GoMap) : GoMap × Option GoError :=
  match data with
  | .invalid msg => (v, some (.syntaxError msg))
  | .valid .null => (none, none)
  | .valid (.object members) =>
      let r := objectInterface (v.getD []) members
      (some r.1, r.2)
  | .valid (.array _) => (v, some (.unmarshalTypeError "array" mapTypeName))
  | .valid (.string _) => (v, some (.unmarshalTypeError "string" mapTypeName))
  | .valid (.number _) => (v, some (.unmarshalTypeError "number" mapTypeName))
  | .valid (.bool _) => (v, some (.unmarshalTypeError "bool" mapTypeName))

/-! ## `strconv.Quote` (the verb `%q`), `strings.Join`, `strings.Contains` -/

/-- The digit `lowerhex[n & 0xF]` of `strconv`. -/
def lowerhex (n : Nat) : Char :=
  "0123456789abcdef".data.getD (n % 16) '0'

/-- The `width` hexadecimal digits of `n`, most significant first. -/
def hexDigits : Nat → Nat → List Char
  | 0, _ => []
  | w + 1, n => lowerhex (n / 16 ^ w) :: hexDigits w n

/-- The function `strconv.IsPrint`: decided in the code for Latin-1, read from the
Unicode table `table` above it. -/
def IsPrint (table : Char → Bool) (r : Char) : Bool :=
  if r.toNat ≤ 0xFF then
    if 0x20 ≤ r.toNat ∧ r.toNat ≤ 0x7E then true
    else if 0xA1 ≤ r.toNat ∧ r.toNat ≤ 0xFF then decide (r.toNat ≠ 0xAD)
    else false
  else table r

/-- The function `appendEscapedRune` of `strconv` for the quote `"`, neither
ASCII-only nor graphic-only: what `Quote` writes for one rune. -/
def escapedRune (table : Char → Bool) (r : Char) : List Char :=
  if r = '"' ∨ r = '\\' then ['\\', r]
  else if IsPrint table r then [r]
  else if r.toNat = 7 then ['\\', 'a']
  else if r.toNat = 8 then ['\\', 'b']
  else if r.toNat = 12 then ['\\', 'f']
  else if r.toNat = 10 then ['\\', 'n']
  else if r.toNat = 13 then ['\\', 'r']
  else if r.toNat = 9 then ['\\', 't']
  else if r.toNat = 11 then ['\\', 'v']
  else if r.toNat < 0x20 ∨ r.toNat = 0x7F then '\\' :: 'x' :: hexDigits 2 r.toNat
  else if r.toNat < 0x10000 then '\\' :: 'u' :: hexDigits 4 r.toNat
  else '\\' :: 'U' :: hexDigits 8 r.toNat

/-- The loop of `appendQuotedWith` over the runes of a string. -/
def quotedRunes (table : Char → Bool) : List Char → List Char
  | [] => []
  | r :: rest => escapedRune table r ++ quotedRunes table rest

/-- The function `strconv.Quote`, which formats the operand of `%q`, on a string of
valid UTF-8. -/
def Quote (table : Char → Bool) (s : String) : String :=
  ⟨'"' :: (quotedRunes table s.data ++ ['"'])⟩

/-- The function `strings.Join`. -/
def Join (elems : List String) (sep : String) : String :=
  match elems with
  | [] => ""
  | first :: rest => rest.foldl (fun b s => b ++ sep ++ s) first

/-- The function `strings.Contains`, as a decidable proposition. -/
def Contains (s substr : String) : Prop :=
  substr.data <:+: s.data

instance (s substr : String) : Decidable (Contains s substr) := by
  unfold Contains
  infer_instance

/-! ## The broker API's failure responses -/

/-- The constant `http.StatusUnprocessableEntity`. -/
def StatusUnprocessableEntity : Int := 422

/-- The constant `http.StatusNotImplemented`. -/
def StatusNotImplemented : Int := 501

/-- The type `apiresponses.FailureResponseBuilder`. -/
structure FailureResponseBuilder where
  error : GoError
  statusCode : Int
  loggerAction : String
  emptyResponse : Bool
  errorKey : String

/-- The function `apiresponses.NewFailureResponseBuilder`. -/
def NewFailureResponseBuilder (err : GoError) (statusCode : Int) (loggerAction : String) :
    FailureResponseBuilder :=
  ⟨err, statusCode, loggerAction, false, ""⟩

/-- The method `WithErrorKey` of the builder. -/
def FailureResponseBuilder.WithErrorKey (f : FailureResponseBuilder) (errorKey : String) :
    FailureResponseBuilder :=
  ⟨f.error, f.statusCode, f.loggerAction, f.emptyResponse, errorKey⟩

/-- The method `Build` of the builder. -/
def FailureResponseBuilder.Build (f : FailureResponseBuilder) : GoError :=
  .failureResponse f.error f.statusCode f.loggerAction f.emptyResponse f.errorKey

/-- The body `FailureResponse.ErrorResponse()` hands to the protocol layer. -/
inductive ResponseBody where
  | empty
  | errorResponse (Error : String) (Description : String)
  deriving DecidableEq, Repr

/-- The method `ErrorResponse` of a failure response; `none` for an error of
another type. -/
def GoError.ErrorResponse : GoError → Option ResponseBody
  | .failureResponse err _ _ emptyResponse errorKey =>
      if emptyResponse then some .empty else some (.errorResponse errorKey err.Error)
  | _ => none

/-- The method `ValidatedStatusCode` of a failure response; `none` for an error of
another type. -/
def GoError.ValidatedStatusCode : GoError → Option Int
  | .failureResponse _ statusCode _ _ _ =>
      if statusCode < 400 ∨ 600 ≤ statusCode then some 500 else some statusCode
  | _ => none

/-- The error key of a failure response; `none` for an error of another type. -/
def GoError.errorKey : GoError → Option String
  | .failureResponse _ _ _ _ errorKey => some errorKey
  | _ => none

/-! ## The collaborators of the binders -/

/-- A `context.Context`, as far as the binders can tell contexts apart. -/
structure Context where
  cancelled : Bool
  deriving DecidableEq, Repr

/-- The type `schema.GroupVersionKind`. -/
structure GroupVersionKind where
  Group : String
  Version : String
  Kind : String
  deriving DecidableEq, Repr

/-- The type `unstructured.Unstructured`: an object of the store as nested maps. -/
structure Unstructured where
  Object : Entries

/-- The method `GetName`: the string at `metadata.name`, or the empty string. -/
def Unstructured.GetName (u : Unstructured) : String :=
  match u.Object.get? "metadata" with
  | some (.map metadata) =>
      match Entries.get? metadata "name" with
      | some (.string name) => name
      | _ => ""
  | _ => ""

/-- The option `client.MatchingLabels`. -/
abbrev MatchingLabels := List (String × String)

/-- The resource-store client: its `List` method, which either fails or fills
the items of a list of the given group, version and kind. -/
structure Client where
  List : Context → GroupVersionKind → MatchingLabels → Except GoError (List Unstructured)

/-- The type `Crossplane`, as far as the binders use it. -/
structure Crossplane where
  client : Client

/-- Modelled from the spec: the type `Instance`, declared outside the two files:
an identifier, a declared service type and a label set; `ID` reads the
identifier. -/
structure Instance where
  identifier : String
  serviceType : String
  labels : List (String × String)

/-- The method `ID` of an instance. -/
def Instance.ID (inst : Instance) : String :=
  inst.identifier

/-- A `lager.Logger`; the binders keep one and never call it. -/
structure Logger where
  component : String

/-- The type `serviceBinder`: the state every binder embeds (the field
`instance` is spelt `inst`). -/
structure serviceBinder where
  inst : Instance
  cp : Crossplane
  logger : Logger

/-- What the two files take from elsewhere: four package-level declarations of
the repository (`instanceParamsParentReferenceName`, `ParentIDLabel`,
`ClusterLabel`, `mariaDBDatabaseGroupVersionKind`) and the Unicode table
behind `strconv.IsPrint`. -/
structure Package where
  instanceParamsParentReferenceName : String
  ParentIDLabel : String
  ClusterLabel : String
  mariaDBDatabaseGroupVersionKind : GroupVersionKind
  isPrintTable : Char → Bool

/-- Modelled from the spec: the helper `interfaceIsSlice`, declared outside the
two files: whether a non-nil `interface{}` holds an array (a Go slice). -/
def interfaceIsSlice : GoAny → Bool
  | .slice _ => true
  | _ => false

/-- The call `reflect.ValueOf(v).Len()` on a slice or map. -/
def GoAny.Len : GoAny → Nat
  | .slice elems => elems.length
  | .map entries => entries.length
  | _ => 0

/-- How a call ends: it returns, or the goroutine panics. -/
inductive Outcome (α : Type) where
  | returned (a : α)
  | panicked (msg : String)
  deriving Repr

/-- The statement `m[k] = v`: a nil map panics. -/
def GoMap.assign (m : GoMap) (k : String) (v : GoAny) : Outcome GoMap :=
  match m with
  | none => .panicked "assignment to entry in nil map"
  | some es => .returned (some (es.set k v))

/-- The type `Credentials`, a `map[string]interface{}`. -/
abbrev Credentials := GoMap

/-! ## `service_mariadb.go` -/

/-- The variable `errNotImplemented`: the error returned for functions that are
not implemented. -/
def errNotImplemented : GoError :=
  ((NewFailureResponseBuilder (.plain "not implemented") StatusNotImplemented
    "not-implemented").WithErrorKey "NotImplemented").Build

/-- The variable `mariaDBGroupVersionKind`. -/
def mariaDBGroupVersionKind : GroupVersionKind :=
  ⟨"syn.tools", "v1alpha1", "CompositeMariaDBInstance"⟩

/-- The type `MariadbServiceBinder`, which embeds `serviceBinder`. -/
structure MariadbServiceBinder extends serviceBinder

/-- The constructor `NewMariadbServiceBinder`. -/
def NewMariadbServiceBinder (c : Crossplane) (inst : Instance) (logger : Logger) :
    MariadbServiceBinder :=
  ⟨⟨inst, c, logger⟩⟩

/-- The text `fmt.Errorf` formats in `Bind` from the parameter name (`%s`) and
the identifier of the instance (`%q`). -/
def bindMessage (K : Package) (id : String) : String :=
  "service MariaDB Galera Cluster is not bindable. " ++
    "You can create a bindable database on this cluster using " ++
    "cf create-service mariadb-k8s-database default my-mariadb-db -c '\x7b\"" ++
    K.instanceParamsParentReferenceName ++ "\": " ++ Quote K.isPrintTable id ++ "\x7d'"

/-- The method `MariadbServiceBinder.Bind`: binding a MariaDB instance is not
supported. -/
def MariadbServiceBinder.Bind (K : Package) (msb : MariadbServiceBinder) (_ : Context)
    (_ : String) : Outcome (Credentials × Option GoError) :=
  .returned (none, some ((NewFailureResponseBuilder
    (.plain (bindMessage K msb.inst.ID))
    StatusUnprocessableEntity
    "binding-not-supported").WithErrorKey "BindingNotSupported").Build)

/-- The method `MariadbServiceBinder.Unbind`. -/
def MariadbServiceBinder.Unbind (_ : MariadbServiceBinder) (_ : Context) (_ : String) :
    Outcome (Option GoError) :=
  .returned (some errNotImplemented)

/-- The names collected by the loop of `Deprovisionable` over the items. -/
def instanceNames (items : List Unstructured) : List String :=
  items.foldl (fun instances item => instances ++ [item.GetName]) []

/-- The method `MariadbServiceBinder.Deprovisionable`: checks that no database
exists for this instance any more. -/
def MariadbServiceBinder.Deprovisionable (K : Package) (msb : MariadbServiceBinder)
    (ctx : Context) : Outcome (Option GoError) :=
  match msb.cp.client.List ctx K.mariaDBDatabaseGroupVersionKind
      [(K.ParentIDLabel, msb.inst.ID)] with
  | .error err => .returned (some err)
  | .ok items =>
      if items.length > 0 then
        let instances := instanceNames items
        .returned (some ((NewFailureResponseBuilder
          (.plain ("instance is still in use by " ++
            Quote K.isPrintTable (Join instances ", ")))
          StatusUnprocessableEntity
          "deprovision-instance-in-use").WithErrorKey "InUseError").Build)
      else .returned none

/-- The method `MariadbServiceBinder.GetBinding`. -/
def MariadbServiceBinder.GetBinding (_ : MariadbServiceBinder) (_ : Context) (_ : String) :
    Outcome (Credentials × Option GoError) :=
  .returned (none, some errNotImplemented)

/-- The method `MariadbServiceBinder.ValidateProvisionParams`: decodes the
parameters into a fresh map and rewrites an array under `tls` to a boolean. -/
def MariadbServiceBinder.ValidateProvisionParams (_ : MariadbServiceBinder) (_ : Context)
    (params : RawMessage) : Outcome (GoMap × Option GoError) :=
  match Unmarshal params (some []) with
  | (validatedParams, some err) =>
      .returned (validatedParams, some (Errorf_w "cannot unmarshal parameters: " err))
  | (validatedParams, none) =>
      if !(validatedParams.index "tls").isNil && interfaceIsSlice (validatedParams.index "tls") then
        if (validatedParams.index "tls").Len ≥ 1 then
          match validatedParams.assign "tls" (.bool true) with
          | .panicked msg => .panicked msg
          | .returned validatedParams => .returned (validatedParams, none)
        else
          match validatedParams.assign "tls" (.bool false) with
          | .panicked msg => .panicked msg
          | .returned validatedParams => .returned (validatedParams, none)
      else .returned (validatedParams, none)

/-! ## `service_generic.go` -/

/-- The type `GenericServiceBinder`, which embeds `serviceBinder`. -/
structure GenericServiceBinder extends serviceBinder

/-- The constructor `NewGenericServiceBinder`. -/
def NewGenericServiceBinder (c : Crossplane) (inst : Instance) (logger : Logger) :
    GenericServiceBinder :=
  ⟨⟨inst, c, logger⟩⟩

/-- The method `GenericServiceBinder.Bind`. -/
def GenericServiceBinder.Bind (_ : GenericServiceBinder) (_ : Context) (_ : String) :
    Outcome (Credentials × Option GoError) :=
  .panicked "implement me"

/-- The method `GenericServiceBinder.Unbind`. -/
def GenericServiceBinder.Unbind (_ : GenericServiceBinder) (_ : Context) (_ : String) :
    Outcome (Option GoError) :=
  .panicked "implement me"

/-- The method `GenericServiceBinder.Deprovisionable`. -/
def GenericServiceBinder.Deprovisionable (_ : GenericServiceBinder) (_ : Context) :
    Outcome (Option GoError) :=
  .returned none

/-- The method `GenericServiceBinder.GetBinding`. -/
def GenericServiceBinder.GetBinding (_ : GenericServiceBinder) (_ : Context) (_ : String) :
    Outcome (Credentials × Option GoError) :=
  .panicked "implement me"

/-- The method `GenericServiceBinder.ValidateProvisionParams`: decodes the
parameters into a nil map variable and copies `subdomain` to the cluster label. -/
def GenericServiceBinder.ValidateProvisionParams (K : Package) (_ : GenericServiceBinder)
    (_ : Context) (params : RawMessage) : Outcome (GoMap × Option GoError) :=
  match Unmarshal params none with
  | (_, some err) => .returned (none, some err)
  | (dat, none) =>
      match dat.assign K.ClusterLabel (dat.index "subdomain") with
      | .panicked msg => .panicked msg
      | .returned dat => .returned (dat, none)

/-! ## Sample values -/

/-- Sample values of the outside declarations; no printable rune above Latin-1. -/
def samplePackage : Package :=
  ⟨"parent_reference", "service.syn.tools/parent", "service.syn.tools/cluster",
    ⟨"syn.tools", "v1alpha1", "CompositeMariaDBDatabaseInstance"⟩, fun _ => false⟩

/-- A store object with the given name. -/
def namedObject (name : String) : Unstructured :=
  ⟨[("metadata", .map [("name", .string name)])]⟩

/-- A store that answers every query with the given outcome. -/
def fixedStore (answer : Except GoError (List Unstructured)) : Crossplane :=
  ⟨⟨fun _ _ _ => answer⟩⟩

/-- A MariaDB binder of the instance `id` over the given store. -/
def sampleMariadb (id : String) (cp : Crossplane) : MariadbServiceBinder :=
  NewMariadbServiceBinder cp ⟨id, "mariadb-k8s", []⟩ ⟨"broker"⟩

/-- A generic binder of the instance `id` over an empty store. -/
def sampleGeneric (id : String) : GenericServiceBinder :=
  NewGenericServiceBinder (fixedStore (.ok [])) ⟨id, "redis-k8s", []⟩ ⟨"broker"⟩

/-- A rune that `Quote` copies: printable, and neither the quote nor the backslash. -/
def plainRune (table : Char → Bool) (r : Char) : Bool :=
  r != '"' && r != '\\' && IsPrint table r

/-! ## Shapes of documents -/

/-- Whether the bytes are one JSON object. -/
def RawMessage.isObject : RawMessage → Bool
  | .valid (.object _) => true
  | _ => false

/-- Whether the bytes are the JSON literal `null`. -/
def RawMessage.isNull : RawMessage → Bool
  | .valid .null => true
  | _ => false

mutual
/-- Whether every number of a JSON value is within the range of `float64`. -/
def JSON.numbersFit : JSON → Bool
  | .null => true
  | .bool _ => true
  | .number lit => parseFloatOk lit
  | .string _ => true
  | .array elems => elemsFit elems
  | .object members => membersFit members
/-- Whether every number of the elements is within the range of `float64`. -/
def elemsFit : List JSON → Bool
  | [] => true
  | x :: xs => x.numbersFit && elemsFit xs
/-- Whether every number of the members is within the range of `float64`. -/
def membersFit : List (String × JSON) → Bool
  | [] => true
  | (_, x) :: rest => x.numbersFit && membersFit rest
end

/-- The value of the field `k` of a JSON object: of a repeated name, the last. -/
def lastField : List (String × JSON) → String → Option JSON
  | [], _ => none
  | (k', x) :: rest, k =>
      match lastField rest k with
      | some y => some y
      | none => if k' = k then some x else none

/-! ## Re-encoding a decoded map -/

mutual
/-- The encoder of `encoding/json` (`json.Marshal`) on a value the decoder made.
A `float64` is written as a literal that reads back as the same `float64`, and a
`float64` being represented by a literal, as that literal; the members of a map,
which Go writes sorted by key, are written in the order of the entries, an order
that stands for nothing in Go. -/
def marshalValue : GoAny → JSON
  | .nil => .null
  | .bool b => .bool b
  | .float64 lit => .number lit
  | .string s => .string s
  | .slice elems => .array (marshalElems elems)
  | .map entries => .object (marshalEntries entries)
/-- The encoder on the elements of a slice. -/
def marshalElems : List GoAny → List JSON
  | [] => []
  | v :: vs => marshalValue v :: marshalElems vs
/-- The encoder on the entries of a map. -/
def marshalEntries : List (String × GoAny) → List (String × JSON)
  | [] => []
  | (k, v) :: rest => (k, marshalValue v) :: marshalEntries rest
end

/-- The call `json.Marshal(m)` for a `map[string]interface{}` the decoder made:
the bytes, as `checkValid` reads them. The nil map is written `null`. -/
def Marshal (m : GoMap) : RawMessage :=
  match m with
  | none => .valid .null
  | some es => .valid (.object (marshalEntries es))

/-- Whether `k` is a key of the entries. -/
def Entries.hasKey (es : Entries) (k : String) : Bool :=
  es.any (fun e => e.1 == k)

/-- The keys of the entries, in their order. -/
def Entries.keys (es : Entries) : List String :=
  es.map Prod.fst

mutual
/-- Whether a value is one the decoder can make: every `float64` is the reading
of its literal, and no map has a key twice. -/
def GoAny.decodable : GoAny → Bool
  | .nil => true
  | .bool _ => true
  | .float64 lit => parseFloatOk lit
  | .string _ => true
  | .slice elems => elemsDecodable elems
  | .map entries => entriesDecodable entries
/-- Whether the elements are values the decoder can make. -/
def elemsDecodable : List GoAny → Bool
  | [] => true
  | v :: vs => v.decodable && elemsDecodable vs
/-- Whether the entries are those of a map the decoder can make. -/
def entriesDecodable : List (String × GoAny) → Bool
  | [] => true
  | (k, v) :: rest =>
      v.decodable && !(rest.any (fun e => e.1 == k)) && entriesDecodable rest
end

/-- Whether a map is one the decoder can make; the nil map is. -/
def GoMap.decodable (m : GoMap) : Bool :=
  match m with
  | none => true
  | some es => entriesDecodable es

/-! ## The calls of the store made explicit -/

/-- One call of the method `List` of the client: its context, the group, version
and kind set on the list, and the label filter. -/
structure ListCall where
  ctx : Context
  gvk : GroupVersionKind
  labels : MatchingLabels
  deriving DecidableEq, Repr

/-- A computation that calls the store: it is done, or it calls `List` and goes
on with what the store answers. -/
inductive StoreM (α : Type) where
  | done (a : α)
  | list (ctx : Context) (gvk : GroupVersionKind) (labels : MatchingLabels)
      (next : Except GoError (List Unstructured) → StoreM α)

/-- The result of a computation over the client `c`. -/
def StoreM.run {α : Type} (c : Client) : StoreM α → α
  | .done a => a
  | .list ctx gvk labels next => (next (c.List ctx gvk labels)).run c

/-- The calls a computation makes over the client `c`, in order. -/
def StoreM.calls {α : Type} (c : Client) : StoreM α → List ListCall
  | .done _ => []
  | .list ctx gvk labels next =>
      ⟨ctx, gvk, labels⟩ :: (next (c.List ctx gvk labels)).calls c

/-- The method `MariadbServiceBinder.Deprovisionable` with its call of
`msb.cp.client.List` made explicit. -/
def MariadbServiceBinder.DeprovisionableM (K : Package) (msb : MariadbServiceBinder)
    (ctx : Context) : StoreM (Outcome (Option GoError)) :=
  .list ctx K.mariaDBDatabaseGroupVersionKind [(K.ParentIDLabel, msb.inst.ID)] fun answer =>
    match answer with
    | .error err => .done (.returned (some err))
    | .ok items =>
        if items.length > 0 then
          let instances := instanceNames items
          .done (.returned (some ((NewFailureResponseBuilder
            (.plain ("instance is still in use by " ++
              Quote K.isPrintTable (Join instances ", ")))
            StatusUnprocessableEntity
            "deprovision-instance-in-use").WithErrorKey "InUseError").Build))
        else .done (.returned none)

/-- The method `GenericServiceBinder.Deprovisionable` with its calls of the store
made explicit: it has none. -/
def GenericServiceBinder.DeprovisionableM (_ : GenericServiceBinder) (_ : Context) :
    StoreM (Outcome (Option GoError)) :=
  .done (.returned none)

/-! ## Lemmas on strings -/

theorem Contains_append_left (a b : String) : Contains (a ++ b) a := by
  unfold Contains
  rw [String.data_append]
  exact List.infix_append' [] a.data b.data |>.trans (by simp)

theorem Contains_append_right (a b : String) : Contains (a ++ b) b := by
  unfold Contains
  rw [String.data_append]
  exact (List.suffix_append a.data b.data).isInfix

theorem Contains_trans {a b c : String} (h₁ : Contains a b) (h₂ : Contains b c) :
    Contains a c :=
  List.IsInfix.trans h₂ h₁

theorem Contains_append_of_left {a c : String} (b : String) (h : Contains a c) :
    Contains (a ++ b) c :=
  Contains_trans (Contains_append_left a b) h

theorem Contains_append_of_right {b c : String} (a : String) (h : Contains b c) :
    Contains (a ++ b) c :=
  Contains_trans (Contains_append_right a b) h

theorem escapedRune_plain (table : Char → Bool) (r : Char) (h : plainRune table r = true) :
    escapedRune table r = [r] := by
  simp only [plainRune, Bool.and_eq_true, bne_iff_ne, ne_eq] at h
  obtain ⟨⟨h₁, h₂⟩, h₃⟩ := h
  simp [escapedRune, h₁, h₂, h₃]

theorem quotedRunes_plain (table : Char → Bool) (cs : List Char)
    (h : cs.all (plainRune table) = true) : quotedRunes table cs = cs := by
  induction cs with
  | nil => rfl
  | cons r rest ih =>
      simp only [List.all_cons, Bool.and_eq_true] at h
      simp [quotedRunes, escapedRune_plain table r h.1, ih h.2]

theorem Quote_plain (table : Char → Bool) (s : String)
    (h : s.data.all (plainRune table) = true) : Quote table s = "\"" ++ s ++ "\"" := by
  apply String.ext
  simp [Quote, quotedRunes_plain table s.data h]

theorem plainRune_comma_space (table : Char → Bool) :
    ", ".data.all (plainRune table) = true := by
  simp [plainRune, IsPrint]

theorem instanceNames_eq_map (items : List Unstructured) :
    instanceNames items = items.map Unstructured.GetName := by
  unfold instanceNames
  have h : ∀ (acc : List String) (l : List Unstructured),
      l.foldl (fun instances item => instances ++ [item.GetName]) acc
        = acc ++ l.map Unstructured.GetName := by
    intro acc l
    induction l generalizing acc with
    | nil => simp
    | cons x xs ih => simp [ih]
  simpa using h [] items

theorem foldl_sep_contains (sep : String) (rest : List String) (acc x : String)
    (h : Contains acc x ∨ x ∈ rest) :
    Contains (rest.foldl (fun b s => b ++ sep ++ s) acc) x := by
  induction rest generalizing acc with
  | nil =>
      rcases h with h | h
      · exact h
      · simp at h
  | cons y ys ih =>
      simp only [List.foldl_cons]
      apply ih
      rcases h with h | h
      · exact Or.inl (Contains_append_of_left _ (Contains_append_of_left _ h))
      · rcases List.mem_cons.mp h with h | h
        · subst h
          exact Or.inl (Contains_append_right _ _)
        · exact Or.inr h

theorem Contains_refl (a : String) : Contains a a :=
  List.infix_refl a.data

theorem Join_contains (elems : List String) (sep x : String) (h : x ∈ elems) :
    Contains (Join elems sep) x := by
  cases elems with
  | nil => simp at h
  | cons first rest =>
      unfold Join
      apply foldl_sep_contains
      rcases List.mem_cons.mp h with h | h
      · subst h
        exact Or.inl (Contains_refl _)
      · exact Or.inr h

theorem foldl_sep_plain (table : Char → Bool) (sep : String)
    (hsep : sep.data.all (plainRune table) = true) (rest : List String) (acc : String)
    (hacc : acc.data.all (plainRune table) = true)
    (hrest : ∀ s ∈ rest, s.data.all (plainRune table) = true) :
    (rest.foldl (fun b s => b ++ sep ++ s) acc).data.all (plainRune table) = true := by
  induction rest generalizing acc with
  | nil => simpa using hacc
  | cons y ys ih =>
      simp only [List.foldl_cons]
      apply ih
      · simp only [String.data_append, List.all_append, Bool.and_eq_true]
        exact ⟨⟨hacc, hsep⟩, hrest y (List.mem_cons_self _ _)⟩
      · intro s hs
        exact hrest s (List.mem_cons_of_mem _ hs)

theorem Join_plain (table : Char → Bool) (elems : List String) (sep : String)
    (hsep : sep.data.all (plainRune table) = true)
    (h : ∀ s ∈ elems, s.data.all (plainRune table) = true) :
    (Join elems sep).data.all (plainRune table) = true := by
  cases elems with
  | nil => rfl
  | cons first rest =>
      unfold Join
      exact foldl_sep_plain table sep hsep rest first (h first (List.mem_cons_self _ _))
        (fun s hs => h s (List.mem_cons_of_mem _ hs))

/-! ## C1: `MariadbServiceBinder.Bind` -/

/-- C1, as amended: for every instance, binding identifier and context,
`MariadbServiceBinder.Bind` returns nil credentials and a failure response with
error key `BindingNotSupported` and status 422 whose message includes the
parent-reference parameter name and the instance identifier as `%q` writes it;
for an identifier of printable runes other than the quote and the backslash that
is the identifier itself between double quotes. -/
theorem Bind_binding_not_supported (K : Package) (msb : MariadbServiceBinder)
    (ctx : Context) (bindingID : String) :
    ∃ err, msb.Bind K ctx bindingID = .returned (none, some err)
      ∧ err.errorKey = some "BindingNotSupported"
      ∧ err.ValidatedStatusCode = some 422
      ∧ err.ErrorResponse = some (.errorResponse "BindingNotSupported" err.Error)
      ∧ Contains err.Error K.instanceParamsParentReferenceName
      ∧ Contains err.Error (Quote K.isPrintTable msb.inst.ID)
      ∧ (msb.inst.ID.data.all (plainRune K.isPrintTable) = true →
          Contains err.Error ("\"" ++ msb.inst.ID ++ "\"")
          ∧ Contains err.Error msb.inst.ID) := by
  refine ⟨_, rfl, rfl, by simp [GoError.ValidatedStatusCode, FailureResponseBuilder.Build,
    FailureResponseBuilder.WithErrorKey, NewFailureResponseBuilder, StatusUnprocessableEntity],
    rfl, ?_, ?_, ?_⟩
  · simp only [FailureResponseBuilder.Build, FailureResponseBuilder.WithErrorKey,
      NewFailureResponseBuilder, GoError.Error, bindMessage]
    exact Contains_append_of_left _ (Contains_append_of_left _
      (Contains_append_of_left _ (Contains_append_right _ _)))
  · simp only [FailureResponseBuilder.Build, FailureResponseBuilder.WithErrorKey,
      NewFailureResponseBuilder, GoError.Error, bindMessage]
    exact Contains_append_of_left _ (Contains_append_right _ _)
  · intro h
    have hq : Contains (bindMessage K msb.inst.ID) ("\"" ++ msb.inst.ID ++ "\"") := by
      rw [← Quote_plain K.isPrintTable _ h]
      exact Contains_append_of_left _ (Contains_append_right _ _)
    exact ⟨hq, Contains_trans hq (Contains_append_of_left _ (Contains_append_right _ _))⟩

/-- C1, witness: the instance `inst-1` has a plain identifier, and the message of
`Bind` holds it between double quotes. -/
theorem Bind_binding_not_supported_witness :
    ∃ err, (sampleMariadb "inst-1" (fixedStore (.ok []))).Bind samplePackage ⟨false⟩ "binding-1"
        = .returned (none, some err)
      ∧ err.errorKey = some "BindingNotSupported"
      ∧ Contains err.Error "\"parent_reference\": \"inst-1\"" := by
  obtain ⟨err, h₁, h₂, -, -, -, -, -⟩ :=
    Bind_binding_not_supported samplePackage (sampleMariadb "inst-1" (fixedStore (.ok [])))
      ⟨false⟩ "binding-1"
  refine ⟨err, h₁, h₂, ?_⟩
  simp only [MariadbServiceBinder.Bind, Outcome.returned.injEq, Prod.mk.injEq, true_and,
    Option.some.injEq] at h₁
  subst h₁
  decide

/-- C1, as stated, fails: for the identifier `a"b` the message of `Bind` holds
`"a\"b"`, in which the identifier itself does not occur. -/
theorem Bind_message_escapes_identifier :
    ∃ err, (sampleMariadb "a\"b" (fixedStore (.ok []))).Bind samplePackage ⟨false⟩ "binding-1"
        = .returned (none, some err)
      ∧ err.Error = "service MariaDB Galera Cluster is not bindable. You can create a bindable database on this cluster using cf create-service mariadb-k8s-database default my-mariadb-db -c '\x7b\"parent_reference\": \"a\\\"b\"\x7d'"
      ∧ ¬ Contains err.Error "a\"b" := by
  refine ⟨_, rfl, by decide, by decide⟩

/-! ## C2, C3, C8: `MariadbServiceBinder.Deprovisionable` -/

/-- C2: when the store query succeeds, `MariadbServiceBinder.Deprovisionable`
returns nil if and only if the item list is empty, and for a list of one or more
items it returns a failure response with error key `InUseError` and status 422. -/
theorem Deprovisionable_nil_iff_no_items (K : Package) (msb : MariadbServiceBinder)
    (ctx : Context) (items : List Unstructured)
    (hquery : msb.cp.client.List ctx K.mariaDBDatabaseGroupVersionKind
      [(K.ParentIDLabel, msb.inst.ID)] = .ok items) :
    (msb.Deprovisionable K ctx = .returned none ↔ items = [])
      ∧ (1 ≤ items.length →
          ∃ err, msb.Deprovisionable K ctx = .returned (some err)
            ∧ err.errorKey = some "InUseError"
            ∧ err.ValidatedStatusCode = some 422) := by
  unfold MariadbServiceBinder.Deprovisionable
  rw [hquery]
  cases items with
  | nil => simp
  | cons x xs =>
      simp [GoError.errorKey, GoError.ValidatedStatusCode, FailureResponseBuilder.Build,
        FailureResponseBuilder.WithErrorKey, NewFailureResponseBuilder,
        StatusUnprocessableEntity]

/-- C2, witness: over a store that holds the databases `db-a` and `db-b`, the
query succeeds and `Deprovisionable` does not return nil. -/
theorem Deprovisionable_nil_iff_no_items_witness :
    ¬ ((sampleMariadb "inst-1" (fixedStore (.ok [namedObject "db-a", namedObject "db-b"]))).Deprovisionable
        samplePackage ⟨false⟩ = .returned none) := by
  intro h
  have := (Deprovisionable_nil_iff_no_items samplePackage
    (sampleMariadb "inst-1" (fixedStore (.ok [namedObject "db-a", namedObject "db-b"])))
    ⟨false⟩ [namedObject "db-a", namedObject "db-b"] rfl).1.mp h
  simp at this

/-- C3, as amended: for every non-empty list of child resources returned by the
store, the message of the in-use error is `instance is still in use by ` followed
by what `%q` writes for the children's names joined with `, ` in the order of the
store; when every name is made of printable runes other than the quote and the
backslash, that is the joined names themselves between double quotes, and the
message contains each child's name. -/
theorem Deprovisionable_message_lists_names (K : Package) (msb : MariadbServiceBinder)
    (ctx : Context) (items : List Unstructured)
    (hquery : msb.cp.client.List ctx K.mariaDBDatabaseGroupVersionKind
      [(K.ParentIDLabel, msb.inst.ID)] = .ok items)
    (hitems : items ≠ []) :
    ∃ err, msb.Deprovisionable K ctx = .returned (some err)
      ∧ err.errorKey = some "InUseError"
      ∧ err.Error = "instance is still in use by " ++
          Quote K.isPrintTable (Join (items.map Unstructured.GetName) ", ")
      ∧ ((∀ item ∈ items, item.GetName.data.all (plainRune K.isPrintTable) = true) →
          err.Error = "instance is still in use by \"" ++
              Join (items.map Unstructured.GetName) ", " ++ "\""
          ∧ ∀ item ∈ items, Contains err.Error item.GetName) := by
  unfold MariadbServiceBinder.Deprovisionable
  rw [hquery]
  have hlen : items.length > 0 := List.length_pos.mpr hitems
  simp only [hlen, if_true, instanceNames_eq_map]
  refine ⟨_, rfl, rfl, rfl, ?_⟩
  intro hplain
  have hjoin : (Join (items.map Unstructured.GetName) ", ").data.all
      (plainRune K.isPrintTable) = true := by
    apply Join_plain _ _ _ (plainRune_comma_space _)
    intro s hs
    obtain ⟨item, hitem, rfl⟩ := List.mem_map.mp hs
    exact hplain item hitem
  have hmsg : GoError.Error ((NewFailureResponseBuilder
      (.plain ("instance is still in use by " ++
        Quote K.isPrintTable (Join (items.map Unstructured.GetName) ", ")))
      StatusUnprocessableEntity "deprovision-instance-in-use").WithErrorKey "InUseError").Build
      = "instance is still in use by \"" ++
          Join (items.map Unstructured.GetName) ", " ++ "\"" := by
    simp only [FailureResponseBuilder.Build, FailureResponseBuilder.WithErrorKey,
      NewFailureResponseBuilder, GoError.Error, Quote_plain _ _ hjoin]
    apply String.ext
    simp
  refine ⟨hmsg, ?_⟩
  intro item hitem
  rw [hmsg]
  exact Contains_append_of_left _ (Contains_append_of_right _
    (Join_contains _ _ _ (List.mem_map_of_mem _ hitem)))

/-- C3, witness: for the databases `db-b`, `db-a`, `db-b`, returned in that order,
the message is `instance is still in use by "db-b, db-a, db-b"`. -/
theorem Deprovisionable_message_lists_names_witness :
    ∃ err, (sampleMariadb "inst-1" (fixedStore
        (.ok [namedObject "db-b", namedObject "db-a", namedObject "db-b"]))).Deprovisionable
        samplePackage ⟨false⟩ = .returned (some err)
      ∧ err.Error = "instance is still in use by \"db-b, db-a, db-b\"" := by
  obtain ⟨err, h₁, -, h₂, -⟩ := Deprovisionable_message_lists_names samplePackage
    (sampleMariadb "inst-1" (fixedStore
      (.ok [namedObject "db-b", namedObject "db-a", namedObject "db-b"])))
    ⟨false⟩ [namedObject "db-b", namedObject "db-a", namedObject "db-b"] rfl (by simp)
  refine ⟨err, h₁, ?_⟩
  rw [h₂]
  decide

/-- C3, as stated, fails: for the one child named `a"b` the message is
`instance is still in use by "a\"b"`, which does not contain the child's name. -/
theorem Deprovisionable_message_escapes_names :
    ∃ err, (sampleMariadb "inst-1" (fixedStore (.ok [namedObject "a\"b"]))).Deprovisionable
        samplePackage ⟨false⟩ = .returned (some err)
      ∧ err.Error = "instance is still in use by \"a\\\"b\""
      ∧ ¬ Contains err.Error (namedObject "a\"b").GetName := by
  refine ⟨_, rfl, by decide, by decide⟩

/-- C8: when the store query fails with an error, `Deprovisionable` returns that
very error, neither wrapped nor replaced, so neither nil nor an in-use error of
its own. -/
theorem Deprovisionable_propagates_query_error (K : Package) (msb : MariadbServiceBinder)
    (ctx : Context) (e : GoError)
    (hquery : msb.cp.client.List ctx K.mariaDBDatabaseGroupVersionKind
      [(K.ParentIDLabel, msb.inst.ID)] = .error e) :
    msb.Deprovisionable K ctx = .returned (some e) := by
  unfold MariadbServiceBinder.Deprovisionable
  rw [hquery]

/-- C8, witness: a store that answers a cancelled context with `context canceled`
makes `Deprovisionable` return that error. -/
theorem Deprovisionable_propagates_query_error_witness :
    (sampleMariadb "inst-1" ⟨⟨fun ctx _ _ =>
        if ctx.cancelled then .error (.plain "context canceled")
        else .ok [namedObject "db-a"]⟩⟩).Deprovisionable samplePackage ⟨true⟩
      = .returned (some (.plain "context canceled")) :=
  Deprovisionable_propagates_query_error samplePackage _ ⟨true⟩ (.plain "context canceled") rfl

/-! ## C10: `MariadbServiceBinder.Unbind` and `GetBinding` -/

/-- C10: for every binding identifier and context, `Unbind` and `GetBinding` of
the MariaDB binder return the one error `errNotImplemented` (`GetBinding` with nil
credentials), a failure response with error key `NotImplemented` and status 501,
and both its key and its status differ from those of the error `Bind` returns. -/
theorem Unbind_GetBinding_not_implemented (K : Package) (msb : MariadbServiceBinder)
    (ctx : Context) (bindingID : String) :
    msb.Unbind ctx bindingID = .returned (some errNotImplemented)
      ∧ msb.GetBinding ctx bindingID = .returned (none, some errNotImplemented)
      ∧ errNotImplemented.errorKey = some "NotImplemented"
      ∧ errNotImplemented.ValidatedStatusCode = some 501
      ∧ errNotImplemented.Error = "not implemented"
      ∧ ∃ bindErr, msb.Bind K ctx bindingID = .returned (none, some bindErr)
          ∧ bindErr.errorKey ≠ errNotImplemented.errorKey
          ∧ bindErr.ValidatedStatusCode ≠ errNotImplemented.ValidatedStatusCode := by
  refine ⟨rfl, rfl, rfl, by decide, rfl, _, rfl, ?_, ?_⟩
  · simp [GoError.errorKey, errNotImplemented, FailureResponseBuilder.Build,
      FailureResponseBuilder.WithErrorKey, NewFailureResponseBuilder]
  · simp [GoError.ValidatedStatusCode, errNotImplemented, FailureResponseBuilder.Build,
      FailureResponseBuilder.WithErrorKey, NewFailureResponseBuilder,
      StatusUnprocessableEntity, StatusNotImplemented]

/-! ## Lemmas on maps and on the decoder -/

theorem Entries.get?_set_self (es : Entries) (k : String) (v : GoAny) :
    (es.set k v).get? k = some v := by
  induction es with
  | nil => simp [Entries.set, Entries.get?]
  | cons e rest ih =>
      obtain ⟨k', v'⟩ := e
      by_cases h : k' = k
      · simp [Entries.set, Entries.get?, h]
      · simp [Entries.set, Entries.get?, h, ih]

theorem Entries.get?_set_other (es : Entries) (k k' : String) (v : GoAny) (h : k ≠ k') :
    (es.set k v).get? k' = es.get? k' := by
  induction es with
  | nil => simp [Entries.set, Entries.get?, h]
  | cons e rest ih =>
      obtain ⟨k₀, v₀⟩ := e
      by_cases h₀ : k₀ = k
      · subst h₀
        simp [Entries.set, Entries.get?, h]
      · by_cases h₁ : k₀ = k'
        · subst h₁
          simp [Entries.set, Entries.get?, h₀]
        · simp [Entries.set, Entries.get?, h₀, h₁, ih]

theorem firstError_eq_none (a b : Option GoError) :
    firstError a b = none ↔ a = none ∧ b = none := by
  cases a <;> simp [firstError]

mutual
theorem valueInterface_error (x : JSON) :
    (valueInterface x).2 = none ↔ x.numbersFit = true := by
  cases x with
  | null => simp [valueInterface, JSON.numbersFit]
  | bool b => simp [valueInterface, JSON.numbersFit]
  | number lit =>
      by_cases h : parseFloatOk lit = true <;> simp [valueInterface, JSON.numbersFit, h]
  | string s => simp [valueInterface, JSON.numbersFit]
  | array elems =>
      simpa [valueInterface, JSON.numbersFit] using arrayInterface_error elems
  | object members =>
      simpa [valueInterface, JSON.numbersFit] using objectInterface_error [] members
theorem arrayInterface_error (xs : List JSON) :
    (arrayInterface xs).2 = none ↔ elemsFit xs = true := by
  cases xs with
  | nil => simp [arrayInterface, elemsFit]
  | cons x rest =>
      simp [arrayInterface, elemsFit, firstError_eq_none, valueInterface_error x,
        arrayInterface_error rest]
theorem objectInterface_error (m : Entries) (members : List (String × JSON)) :
    (objectInterface m members).2 = none ↔ membersFit members = true := by
  cases members with
  | nil => simp [objectInterface, membersFit]
  | cons e rest =>
      obtain ⟨k, x⟩ := e
      simp [objectInterface, membersFit, firstError_eq_none, valueInterface_error x,
        objectInterface_error (m.set k (valueInterface x).1) rest]
end

theorem objectInterface_get? (m : Entries) (members : List (String × JSON)) (k : String) :
    (objectInterface m members).1.get? k
      = match lastField members k with
        | some x => some (valueInterface x).1
        | none => m.get? k := by
  induction members generalizing m with
  | nil => simp [objectInterface, lastField]
  | cons e rest ih =>
      obtain ⟨k', x⟩ := e
      simp only [objectInterface, lastField]
      rw [ih]
      cases hrest : lastField rest k with
      | some y => simp
      | none =>
          by_cases h : k' = k
          · subst h
            simp [Entries.get?_set_self]
          · simp [h, Entries.get?_set_other _ _ _ _ h]

theorem ValidateProvisionParams_of_decoded_map (rsb : MariadbServiceBinder) (ctx : Context)
    (params : RawMessage) (es : Entries)
    (hdecode : Unmarshal params (some []) = (some es, none)) :
    ∃ out, rsb.ValidateProvisionParams ctx params = .returned (some out, none) := by
  unfold MariadbServiceBinder.ValidateProvisionParams
  rw [hdecode]
  simp only [GoMap.assign]
  split_ifs <;> exact ⟨_, rfl⟩

/-! ## C4, C7: `MariadbServiceBinder.ValidateProvisionParams` -/

/-- C4: for every parameter document that decodes (to the map `m`),
`MariadbServiceBinder.ValidateProvisionParams` returns a map `out` without error
in which a non-empty array under `tls` has become `true`, whatever its elements,
and an empty array `false`; an absent or null `tls` leaves the map as decoded, and
so does any other value under `tls` that is not an array. -/
theorem ValidateProvisionParams_normalises_tls (rsb : MariadbServiceBinder) (ctx : Context)
    (params : RawMessage) (m : GoMap) (hdecode : Unmarshal params (some []) = (m, none)) :
    ∃ out, rsb.ValidateProvisionParams ctx params = .returned (out, none)
      ∧ (∀ elems, m.index "tls" = .slice elems → elems ≠ [] →
          out.index "tls" = .bool true)
      ∧ (m.index "tls" = .slice [] → out.index "tls" = .bool false)
      ∧ (m.index "tls" = .nil → out = m)
      ∧ (interfaceIsSlice (m.index "tls") = false →
          out = m ∧ out.index "tls" = m.index "tls") := by
  unfold MariadbServiceBinder.ValidateProvisionParams
  rw [hdecode]
  cases m with
  | none => exact ⟨none, by simp [GoMap.index, GoAny.isNil]⟩
  | some es =>
      cases htls : GoMap.index (some es) "tls" with
      | slice elems =>
          cases elems with
          | nil =>
              refine ⟨some (es.set "tls" (.bool false)), ?_, ?_, ?_, ?_, ?_⟩
              · simp [GoAny.isNil, interfaceIsSlice, GoAny.Len, GoMap.assign, htls]
              · intro elems h hne
                simp only [GoAny.slice.injEq] at h
                exact absurd h.symm hne
              · intro _
                simp [GoMap.index, Entries.get?_set_self]
              · intro h
                simp at h
              · intro h
                simp [interfaceIsSlice] at h
          | cons x xs =>
              refine ⟨some (es.set "tls" (.bool true)), ?_, ?_, ?_, ?_, ?_⟩
              · simp [GoAny.isNil, interfaceIsSlice, GoAny.Len, GoMap.assign, htls]
              · intro _ _ _
                simp [GoMap.index, Entries.get?_set_self]
              · intro h
                simp at h
              · intro h
                simp at h
              · intro h
                simp [interfaceIsSlice] at h
      | nil => exact ⟨some es, by simp [GoAny.isNil, htls]⟩
      | bool b => exact ⟨some es, by simp [GoAny.isNil, interfaceIsSlice, htls]⟩
      | float64 lit => exact ⟨some es, by simp [GoAny.isNil, interfaceIsSlice, htls]⟩
      | string str => exact ⟨some es, by simp [GoAny.isNil, interfaceIsSlice, htls]⟩
      | map entries => exact ⟨some es, by simp [GoAny.isNil, interfaceIsSlice, htls]⟩

/-- C4, witness: the document `{"tls": ["on"], "size": 2}` decodes, and its `tls`
becomes `true`; and the four documents of the specification, `{"tls": null}`,
`{"tls": []}`, `{"tls": ["on"]}` and `{"tls": true}`, evaluated. -/
theorem ValidateProvisionParams_normalises_tls_witness :
    (∃ out, (sampleMariadb "inst-1" (fixedStore (.ok []))).ValidateProvisionParams ⟨false⟩
        (.valid (.object [("tls", .array [.string "on"]), ("size", .number "2")]))
          = .returned (out, none)
        ∧ out.index "tls" = .bool true)
      ∧ (sampleMariadb "inst-1" (fixedStore (.ok []))).ValidateProvisionParams ⟨false⟩
          (.valid (.object [("tls", .null)])) = .returned (some [("tls", .nil)], none)
      ∧ (sampleMariadb "inst-1" (fixedStore (.ok []))).ValidateProvisionParams ⟨false⟩
          (.valid (.object [("tls", .array [])])) = .returned (some [("tls", .bool false)], none)
      ∧ (sampleMariadb "inst-1" (fixedStore (.ok []))).ValidateProvisionParams ⟨false⟩
          (.valid (.object [("tls", .array [.string "on"])]))
          = .returned (some [("tls", .bool true)], none)
      ∧ (sampleMariadb "inst-1" (fixedStore (.ok []))).ValidateProvisionParams ⟨false⟩
          (.valid (.object [("tls", .bool true)])) = .returned (some [("tls", .bool true)], none) := by
  refine ⟨?_, rfl, rfl, rfl, rfl⟩
  obtain ⟨out, h₁, h₂, -⟩ := ValidateProvisionParams_normalises_tls
    (sampleMariadb "inst-1" (fixedStore (.ok []))) ⟨false⟩
    (.valid (.object [("tls", .array [.string "on"]), ("size", .number "2")]))
    (some [("tls", .slice [.string "on"]), ("size", .float64 "2")]) rfl
  exact ⟨out, h₁, h₂ [.string "on"] rfl (by simp)⟩

/-- C7, as amended: for every input that is invalid JSON, or a JSON array, string,
number or boolean, `MariadbServiceBinder.ValidateProvisionParams` returns the error
that wraps the decode error, with the message `cannot unmarshal parameters: `
followed by the decode error's, next to the empty map; so it does for a JSON object
that holds a number outside the range of `float64`; for the literal `null` it
returns the nil map and a nil error; and for every JSON object whose numbers are
all within the range of `float64` it returns a nil error. -/
theorem ValidateProvisionParams_parse_error (rsb : MariadbServiceBinder) (ctx : Context) :
    (∀ params, params.isObject = false → params.isNull = false →
        ∃ err, Unmarshal params (some []) = (some [], some err)
          ∧ rsb.ValidateProvisionParams ctx params
              = .returned (some [], some (Errorf_w "cannot unmarshal parameters: " err))
          ∧ (Errorf_w "cannot unmarshal parameters: " err).Error
              = "cannot unmarshal parameters: " ++ err.Error
          ∧ (Errorf_w "cannot unmarshal parameters: " err).Unwrap = some err)
      ∧ (∀ members, membersFit members = false →
        ∃ m err, Unmarshal (.valid (.object members)) (some []) = (m, some err)
          ∧ rsb.ValidateProvisionParams ctx (.valid (.object members))
              = .returned (m, some (Errorf_w "cannot unmarshal parameters: " err)))
      ∧ rsb.ValidateProvisionParams ctx (.valid .null) = .returned (none, none)
      ∧ (∀ members, membersFit members = true →
        ∃ out, rsb.ValidateProvisionParams ctx (.valid (.object members))
          = .returned (some out, none)) := by
  refine ⟨?_, ?_, rfl, ?_⟩
  · intro params hobj hnull
    cases params with
    | invalid msg => exact ⟨_, rfl, rfl, rfl, rfl⟩
    | valid doc =>
        cases doc with
        | null => simp [RawMessage.isNull] at hnull
        | object members => simp [RawMessage.isObject] at hobj
        | bool b => exact ⟨_, rfl, rfl, rfl, rfl⟩
        | number lit => exact ⟨_, rfl, rfl, rfl, rfl⟩
        | string str => exact ⟨_, rfl, rfl, rfl, rfl⟩
        | array elems => exact ⟨_, rfl, rfl, rfl, rfl⟩
  · intro members hfit
    have herr : (objectInterface [] members).2 ≠ none := by
      intro h
      rw [(objectInterface_error [] members).mp h] at hfit
      exact Bool.noConfusion hfit
    obtain ⟨err, herr⟩ := Option.ne_none_iff_exists'.mp herr
    refine ⟨some (objectInterface [] members).1, err, ?_, ?_⟩
    · simp [Unmarshal, herr]
    · simp [MariadbServiceBinder.ValidateProvisionParams, Unmarshal, herr]
  · intro members hfit
    have herr : (objectInterface [] members).2 = none :=
      (objectInterface_error [] members).mpr hfit
    have hdecode : Unmarshal (.valid (.object members)) (some [])
        = (some (objectInterface [] members).1, none) := by
      simp [Unmarshal, herr]
    exact ValidateProvisionParams_of_decoded_map rsb ctx _ _ hdecode

/-- C7, witness: the array `["tls"]` is wrapped as a type error, and the object
`{"tls": ["on"]}` is validated without error. -/
theorem ValidateProvisionParams_parse_error_witness :
    (sampleMariadb "inst-1" (fixedStore (.ok []))).ValidateProvisionParams ⟨false⟩
        (.valid (.array [.string "tls"]))
      = .returned (some [], some (.wrapError
          "cannot unmarshal parameters: json: cannot unmarshal array into Go value of type map[string]interface \x7b\x7d"
          (.unmarshalTypeError "array" "map[string]interface \x7b\x7d")))
      ∧ ∃ out, (sampleMariadb "inst-1" (fixedStore (.ok []))).ValidateProvisionParams ⟨false⟩
        (.valid (.object [("tls", .array [.string "on"])])) = .returned (some out, none) := by
  obtain ⟨h₁, -, -, h₂⟩ := ValidateProvisionParams_parse_error
    (sampleMariadb "inst-1" (fixedStore (.ok []))) ⟨false⟩
  refine ⟨?_, h₂ [("tls", .array [.string "on"])] rfl⟩
  obtain ⟨err, hd, hv, -, -⟩ := h₁ (.valid (.array [.string "tls"])) rfl rfl
  rw [hv]
  simp only [Unmarshal, Prod.mk.injEq, true_and, Option.some.injEq] at hd
  subst hd
  rfl

/-- C7, as stated, fails: on the literal `null`, a document that is not an object,
`MariadbServiceBinder.ValidateProvisionParams` returns the nil map and no error. -/
theorem ValidateProvisionParams_null_no_error :
    RawMessage.isObject (.valid .null) = false
      ∧ (sampleMariadb "inst-1" (fixedStore (.ok []))).ValidateProvisionParams ⟨false⟩
          (.valid .null) = .returned (none, none) :=
  ⟨rfl, rfl⟩

/-! ## C5, C6, C9: `GenericServiceBinder` -/

/-- C5, the code at the failing inputs: for every binding identifier and context,
`Bind`, `Unbind` and `GetBinding` of the generic binder panic with `implement me`
and return nothing, neither a value nor an error. -/
theorem GenericServiceBinder_placeholders_panic (g : GenericServiceBinder) (ctx : Context)
    (bindingID : String) :
    g.Bind ctx bindingID = .panicked "implement me"
      ∧ g.Unbind ctx bindingID = .panicked "implement me"
      ∧ g.GetBinding ctx bindingID = .panicked "implement me" :=
  ⟨rfl, rfl, rfl⟩

/-- C6, the code at the failing input and beside it: on the literal `null`
`GenericServiceBinder.ValidateProvisionParams` panics on the assignment to its nil
map; on every other input that is not a JSON object (invalid JSON, an array, a
string, a number, a boolean) it returns the nil map and the decode error. -/
theorem GenericServiceBinder_ValidateProvisionParams_non_object (K : Package)
    (g : GenericServiceBinder) (ctx : Context) :
    g.ValidateProvisionParams K ctx (.valid .null)
        = .panicked "assignment to entry in nil map"
      ∧ ∀ params, params.isObject = false → params.isNull = false →
          ∃ err, Unmarshal params none = (none, some err)
            ∧ g.ValidateProvisionParams K ctx params = .returned (none, some err) := by
  refine ⟨rfl, ?_⟩
  intro params hobj hnull
  cases params with
  | invalid msg => exact ⟨_, rfl, rfl⟩
  | valid doc =>
      cases doc with
      | null => simp [RawMessage.isNull] at hnull
      | object members => simp [RawMessage.isObject] at hobj
      | bool b => exact ⟨_, rfl, rfl⟩
      | number lit => exact ⟨_, rfl, rfl⟩
      | string str => exact ⟨_, rfl, rfl⟩
      | array elems => exact ⟨_, rfl, rfl⟩

/-- C9, as amended: for every JSON object whose numbers are all within the range
of `float64` and whose field `subdomain` has the value `v` (of a repeated field,
the last), `GenericServiceBinder.ValidateProvisionParams` returns a map without
error, and in it the cluster label key holds `v` as decoded. -/
theorem GenericServiceBinder_ValidateProvisionParams_cluster_label (K : Package)
    (g : GenericServiceBinder) (ctx : Context) (members : List (String × JSON)) (v : JSON)
    (hfit : membersFit members = true) (hsub : lastField members "subdomain" = some v) :
    ∃ out, g.ValidateProvisionParams K ctx (.valid (.object members))
        = .returned (some out, none)
      ∧ out.get? K.ClusterLabel = some (valueInterface v).1 := by
  have herr : (objectInterface [] members).2 = none :=
    (objectInterface_error [] members).mpr hfit
  have hget := objectInterface_get? [] members "subdomain"
  rw [hsub] at hget
  refine ⟨(objectInterface [] members).1.set K.ClusterLabel (valueInterface v).1, ?_,
    Entries.get?_set_self _ _ _⟩
  simp [GenericServiceBinder.ValidateProvisionParams, Unmarshal, herr, GoMap.assign,
    GoMap.index, hget]

/-- C9, witness: for the document `{"subdomain": "foo"}` the cluster label of the
output is the string `foo`. -/
theorem GenericServiceBinder_ValidateProvisionParams_cluster_label_witness :
    ∃ out, (sampleGeneric "inst-1").ValidateProvisionParams samplePackage ⟨false⟩
        (.valid (.object [("subdomain", .string "foo")])) = .returned (some out, none)
      ∧ out.get? "service.syn.tools/cluster" = some (.string "foo") :=
  GenericServiceBinder_ValidateProvisionParams_cluster_label samplePackage
    (sampleGeneric "inst-1") ⟨false⟩ [("subdomain", .string "foo")] (.string "foo") rfl rfl

/-- C9, as stated, fails: the document `{"subdomain": "foo", "replicas": 1e999}` is
a well-formed JSON object with a `subdomain` field, and
`GenericServiceBinder.ValidateProvisionParams` returns no map and the decoder's
error for the number, which is outside the range of `float64`. -/
theorem GenericServiceBinder_ValidateProvisionParams_number_out_of_range :
    lastField [("subdomain", .string "foo"), ("replicas", .number "1e999")] "subdomain"
        = some (.string "foo")
      ∧ (sampleGeneric "inst-1").ValidateProvisionParams samplePackage ⟨false⟩
          (.valid (.object [("subdomain", .string "foo"), ("replicas", .number "1e999")]))
        = .returned (none, some (.unmarshalTypeError "number 1e999" "float64")) :=
  ⟨rfl, rfl⟩

/-! ## C12, C13: the queries of `Deprovisionable` -/

/-- C12: `MariadbServiceBinder.Deprovisionable` calls `List` exactly once, whatever
the store answers, with the caller's context, the group, version and kind of the
child databases, and the one label pair of the parent-reference label and the
identifier of this instance; its result is the result of the computation with that
one call, and two stores that answer that query alike give the same result. -/
theorem Deprovisionable_queries_once (K : Package) (msb : MariadbServiceBinder)
    (ctx : Context) :
    (∀ c : Client, (msb.DeprovisionableM K ctx).calls c
        = [⟨ctx, K.mariaDBDatabaseGroupVersionKind, [(K.ParentIDLabel, msb.inst.ID)]⟩])
      ∧ (msb.DeprovisionableM K ctx).run msb.cp.client = msb.Deprovisionable K ctx
      ∧ (∀ cp : Crossplane,
          cp.client.List ctx K.mariaDBDatabaseGroupVersionKind [(K.ParentIDLabel, msb.inst.ID)]
            = msb.cp.client.List ctx K.mariaDBDatabaseGroupVersionKind
                [(K.ParentIDLabel, msb.inst.ID)] →
          (NewMariadbServiceBinder cp msb.inst msb.logger).Deprovisionable K ctx
            = msb.Deprovisionable K ctx) := by
  refine ⟨?_, ?_, ?_⟩
  · intro c
    simp only [MariadbServiceBinder.DeprovisionableM, StoreM.calls]
    cases c.List ctx K.mariaDBDatabaseGroupVersionKind [(K.ParentIDLabel, msb.inst.ID)] with
    | error err => rfl
    | ok items => by_cases h : items.length > 0 <;> simp [h, StoreM.calls]
  · simp only [MariadbServiceBinder.DeprovisionableM, StoreM.run,
      MariadbServiceBinder.Deprovisionable]
    cases msb.cp.client.List ctx K.mariaDBDatabaseGroupVersionKind
        [(K.ParentIDLabel, msb.inst.ID)] with
    | error err => rfl
    | ok items => by_cases h : items.length > 0 <;> simp [h, StoreM.run]
  · intro cp h
    simp only [MariadbServiceBinder.Deprovisionable, NewMariadbServiceBinder, h]

/-- C12, witness: over a store that holds `db-a`, the one call of `Deprovisionable`
for the instance `inst-1`; and a store that answers alike gives the same result. -/
theorem Deprovisionable_queries_once_witness :
    ((sampleMariadb "inst-1" (fixedStore (.ok [namedObject "db-a"]))).DeprovisionableM
        samplePackage ⟨false⟩).calls (fixedStore (.ok [namedObject "db-a"])).client
      = [⟨⟨false⟩, ⟨"syn.tools", "v1alpha1", "CompositeMariaDBDatabaseInstance"⟩,
          [("service.syn.tools/parent", "inst-1")]⟩]
      ∧ (sampleMariadb "inst-1" ⟨⟨fun ctx _ _ =>
            if ctx.cancelled then .error (.plain "context canceled")
            else .ok [namedObject "db-a"]⟩⟩).Deprovisionable samplePackage ⟨false⟩
        = (sampleMariadb "inst-1" (fixedStore (.ok [namedObject "db-a"]))).Deprovisionable
            samplePackage ⟨false⟩ :=
  ⟨(Deprovisionable_queries_once samplePackage
      (sampleMariadb "inst-1" (fixedStore (.ok [namedObject "db-a"]))) ⟨false⟩).1 _,
    (Deprovisionable_queries_once samplePackage
      (sampleMariadb "inst-1" (fixedStore (.ok [namedObject "db-a"]))) ⟨false⟩).2.2
      ⟨⟨fun ctx _ _ =>
        if ctx.cancelled then .error (.plain "context canceled")
        else .ok [namedObject "db-a"]⟩⟩ rfl⟩

/-- C13: for every instance and every context, `GenericServiceBinder.Deprovisionable`
returns nil, and it makes no call of the store: its computation has no call, over
any store, and the result of that computation is the result of the method. -/
theorem GenericServiceBinder_Deprovisionable_nil (g : GenericServiceBinder)
    (ctx : Context) :
    g.Deprovisionable ctx = .returned none
      ∧ (∀ c : Client, (g.DeprovisionableM ctx).calls c = [])
      ∧ (∀ c : Client, (g.DeprovisionableM ctx).run c = g.Deprovisionable ctx) :=
  ⟨rfl, fun _ => rfl, fun _ => rfl⟩

/-! ## C14, C15, C16: what `ValidateProvisionParams` leaves alone -/

theorem Entries.keys_set_of_get? (es : Entries) (k : String) (v w : GoAny)
    (h : es.get? k = some w) : (es.set k v).keys = es.keys := by
  induction es with
  | nil => simp [Entries.get?] at h
  | cons e rest ih =>
      obtain ⟨k', v'⟩ := e
      by_cases hk : k' = k
      · subst hk
        simp [Entries.set, Entries.keys]
      · simp only [Entries.get?, hk, if_false] at h
        have := ih h
        simp only [Entries.keys] at this
        simp [Entries.set, Entries.keys, hk, this]

theorem Entries.hasKey_eq_keys_any (es : Entries) (k : String) :
    es.hasKey k = es.keys.any (fun x => x == k) := by
  induction es with
  | nil => rfl
  | cons e rest ih =>
      simp only [Entries.hasKey, Entries.keys, List.any_cons, List.map_cons] at ih ⊢
      rw [ih]

theorem GoMap.index_slice_get? (es : Entries) (k : String) (elems : List GoAny)
    (h : GoMap.index (some es) k = .slice elems) : es.get? k = some (.slice elems) := by
  simp only [GoMap.index] at h
  cases hget : es.get? k with
  | none => simp [hget] at h
  | some w =>
      simp only [hget, Option.getD_some] at h
      rw [h]

/-- C14: for every JSON object input, `MariadbServiceBinder.ValidateProvisionParams`
returns a map with the keys of the decoded input, no more and no fewer, in which
every key other than `tls` has the value the decoder gave it. -/
theorem ValidateProvisionParams_keeps_keys (rsb : MariadbServiceBinder) (ctx : Context)
    (members : List (String × JSON)) :
    ∃ m out e e',
      Unmarshal (.valid (.object members)) (some []) = (some m, e)
      ∧ rsb.ValidateProvisionParams ctx (.valid (.object members)) = .returned (some out, e')
      ∧ out.keys = m.keys
      ∧ (∀ k, out.hasKey k = m.hasKey k)
      ∧ (∀ k, k ≠ "tls" → out.get? k = m.get? k) := by
  have hkeys : ∀ (a b : Entries), a.keys = b.keys → ∀ k, a.hasKey k = b.hasKey k := by
    intro a b h k
    rw [Entries.hasKey_eq_keys_any a, Entries.hasKey_eq_keys_any b, h]
  cases herr : (objectInterface [] members).2 with
  | some err =>
      refine ⟨(objectInterface [] members).1, (objectInterface [] members).1, some err,
        some (Errorf_w "cannot unmarshal parameters: " err),
        by simp [Unmarshal, herr], ?_, rfl, fun _ => rfl, fun _ _ => rfl⟩
      simp [MariadbServiceBinder.ValidateProvisionParams, Unmarshal, herr]
  | none =>
      have hdecode : Unmarshal (.valid (.object members)) (some [])
          = (some (objectInterface [] members).1, none) := by
        simp [Unmarshal, herr]
      generalize (objectInterface [] members).1 = es at hdecode
      cases htls : GoMap.index (some es) "tls" with
      | slice elems =>
          have hget := GoMap.index_slice_get? es "tls" elems htls
          cases elems with
          | nil =>
              refine ⟨es, es.set "tls" (.bool false), none, none, hdecode, ?_,
                Entries.keys_set_of_get? es _ _ _ hget,
                hkeys _ _ (Entries.keys_set_of_get? es _ _ _ hget),
                fun k hk => Entries.get?_set_other es _ _ _ (Ne.symm hk)⟩
              unfold MariadbServiceBinder.ValidateProvisionParams
              rw [hdecode]
              simp [GoAny.isNil, interfaceIsSlice, GoAny.Len, GoMap.assign, htls]
          | cons x xs =>
              refine ⟨es, es.set "tls" (.bool true), none, none, hdecode, ?_,
                Entries.keys_set_of_get? es _ _ _ hget,
                hkeys _ _ (Entries.keys_set_of_get? es _ _ _ hget),
                fun k hk => Entries.get?_set_other es _ _ _ (Ne.symm hk)⟩
              unfold MariadbServiceBinder.ValidateProvisionParams
              rw [hdecode]
              simp [GoAny.isNil, interfaceIsSlice, GoAny.Len, GoMap.assign, htls]
      | nil =>
          refine ⟨es, es, none, none, hdecode, ?_, rfl, fun _ => rfl, fun _ _ => rfl⟩
          unfold MariadbServiceBinder.ValidateProvisionParams
          rw [hdecode]
          simp [GoAny.isNil, htls]
      | bool b =>
          refine ⟨es, es, none, none, hdecode, ?_, rfl, fun _ => rfl, fun _ _ => rfl⟩
          unfold MariadbServiceBinder.ValidateProvisionParams
          rw [hdecode]
          simp [GoAny.isNil, interfaceIsSlice, htls]
      | float64 lit =>
          refine ⟨es, es, none, none, hdecode, ?_, rfl, fun _ => rfl, fun _ _ => rfl⟩
          unfold MariadbServiceBinder.ValidateProvisionParams
          rw [hdecode]
          simp [GoAny.isNil, interfaceIsSlice, htls]
      | string str =>
          refine ⟨es, es, none, none, hdecode, ?_, rfl, fun _ => rfl, fun _ _ => rfl⟩
          unfold MariadbServiceBinder.ValidateProvisionParams
          rw [hdecode]
          simp [GoAny.isNil, interfaceIsSlice, htls]
      | map entries =>
          refine ⟨es, es, none, none, hdecode, ?_, rfl, fun _ => rfl, fun _ _ => rfl⟩
          unfold MariadbServiceBinder.ValidateProvisionParams
          rw [hdecode]
          simp [GoAny.isNil, interfaceIsSlice, htls]

/-- C15, as amended: for every JSON object input whose numbers are all within the
range of `float64`, `GenericServiceBinder.ValidateProvisionParams` returns the
decoded map with every key other than the cluster label as decoded, and the cluster
label set to what `subdomain` reads as: with no `subdomain` the cluster label is
there with a nil value, and a cluster label of the caller is overwritten. -/
theorem GenericServiceBinder_ValidateProvisionParams_frame (K : Package)
    (g : GenericServiceBinder) (ctx : Context) (members : List (String × JSON))
    (hfit : membersFit members = true) :
    ∃ m out,
      Unmarshal (.valid (.object members)) none = (some m, none)
      ∧ g.ValidateProvisionParams K ctx (.valid (.object members)) = .returned (some out, none)
      ∧ (∀ k, k ≠ K.ClusterLabel → out.get? k = m.get? k)
      ∧ out.get? K.ClusterLabel = some (GoMap.index (some m) "subdomain")
      ∧ (m.get? "subdomain" = none → out.get? K.ClusterLabel = some .nil) := by
  have herr : (objectInterface [] members).2 = none :=
    (objectInterface_error [] members).mpr hfit
  refine ⟨(objectInterface [] members).1,
    (objectInterface [] members).1.set K.ClusterLabel
      (GoMap.index (some (objectInterface [] members).1) "subdomain"),
    by simp [Unmarshal, herr], ?_,
    fun k hk => Entries.get?_set_other _ _ _ _ (Ne.symm hk),
    Entries.get?_set_self _ _ _, ?_⟩
  · simp [GenericServiceBinder.ValidateProvisionParams, Unmarshal, herr, GoMap.assign]
  · intro h
    simp [Entries.get?_set_self, GoMap.index, h]

/-- C15, witness: the document `{"size": 2, "service.syn.tools/cluster": "mine"}`
has no `subdomain`; the output keeps `size` and holds the cluster label with a nil
value in place of the caller's. -/
theorem GenericServiceBinder_ValidateProvisionParams_frame_witness :
    ∃ out, (sampleGeneric "inst-1").ValidateProvisionParams samplePackage ⟨false⟩
        (.valid (.object [("size", .number "2"),
          ("service.syn.tools/cluster", .string "mine")])) = .returned (some out, none)
      ∧ out.get? "size" = some (.float64 "2")
      ∧ out.get? "service.syn.tools/cluster" = some .nil := by
  obtain ⟨m, out, hm, hout, hframe, -, hnil⟩ :=
    GenericServiceBinder_ValidateProvisionParams_frame samplePackage (sampleGeneric "inst-1")
      ⟨false⟩ [("size", .number "2"), ("service.syn.tools/cluster", .string "mine")] rfl
  have hm' : m = [("size", .float64 "2"), ("service.syn.tools/cluster", .string "mine")] := by
    have h : Unmarshal (.valid (.object [("size", .number "2"),
        ("service.syn.tools/cluster", .string "mine")])) none
        = (some [("size", .float64 "2"), ("service.syn.tools/cluster", .string "mine")],
            none) := rfl
    rw [h] at hm
    simp only [Prod.mk.injEq, Option.some.injEq, and_true] at hm
    exact hm.symm
  subst hm'
  exact ⟨out, hout, by rw [hframe "size" (by decide)]; rfl, hnil rfl⟩

/-- C15, as stated, fails: the document `{"replicas": 1e999}` is a well-formed JSON
object, and `GenericServiceBinder.ValidateProvisionParams` returns no map for it,
so no cluster label either, and the decoder's error for the number. -/
theorem GenericServiceBinder_ValidateProvisionParams_no_map :
    (sampleGeneric "inst-1").ValidateProvisionParams samplePackage ⟨false⟩
        (.valid (.object [("replicas", .number "1e999")]))
      = .returned (none, some (.unmarshalTypeError "number 1e999" "float64")) :=
  rfl

/-- C16, as amended: whenever `ValidateProvisionParams` returns an error, the
generic binder returns the nil map with it, and the MariaDB binder the map as
`json.Unmarshal` left it: the empty map, not nil, for every input that is not a
JSON object, and for a JSON object, where the error is that of a number outside the
range of `float64`, a map that is not nil and may hold members. -/
theorem ValidateProvisionParams_map_on_error (K : Package) (rsb : MariadbServiceBinder)
    (g : GenericServiceBinder) (ctx : Context) (params : RawMessage) (out : GoMap)
    (err : GoError) :
    (g.ValidateProvisionParams K ctx params = .returned (out, some err) → out = none)
      ∧ (rsb.ValidateProvisionParams ctx params = .returned (out, some err) →
          out = (Unmarshal params (some [])).1
          ∧ (params.isObject = false → out = some [])
          ∧ (∀ members, params = .valid (.object members) →
              out ≠ none ∧ membersFit members = false)) := by
  constructor
  · intro h
    unfold GenericServiceBinder.ValidateProvisionParams at h
    cases hd : Unmarshal params none with
    | mk dat e =>
        rw [hd] at h
        cases e with
        | some e' =>
            simp only [Outcome.returned.injEq, Prod.mk.injEq] at h
            exact h.1.symm
        | none =>
            cases dat with
            | none => simp [GoMap.assign] at h
            | some es => simp [GoMap.assign] at h
  · intro h
    have hout : out = (Unmarshal params (some [])).1
        ∧ (Unmarshal params (some [])).2 ≠ none := by
      unfold MariadbServiceBinder.ValidateProvisionParams at h
      cases hd : Unmarshal params (some []) with
      | mk validatedParams e =>
          rw [hd] at h
          cases e with
          | some e' =>
              simp only [Outcome.returned.injEq, Prod.mk.injEq] at h
              exact ⟨h.1.symm, by simp⟩
          | none =>
              exfalso
              revert h
              cases validatedParams with
              | none => simp [GoMap.index, GoAny.isNil]
              | some es =>
                  simp only [GoMap.assign]
                  split_ifs <;> simp
    refine ⟨hout.1, ?_, ?_⟩
    · intro hobj
      rw [hout.1]
      cases params with
      | invalid msg => rfl
      | valid doc =>
          cases doc with
          | object members => simp [RawMessage.isObject] at hobj
          | null => exact absurd rfl hout.2
          | bool b => rfl
          | number lit => rfl
          | string str => rfl
          | array elems => rfl
    · intro members hp
      subst hp
      refine ⟨by rw [hout.1]; simp [Unmarshal], ?_⟩
      have h2 := hout.2
      simp only [Unmarshal] at h2
      cases hfit : membersFit members with
      | false => rfl
      | true => exact absurd ((objectInterface_error [] members).mpr hfit) h2

/-- C16, witness: on the array `["tls"]` both binders return an error, the generic
one with the nil map and the MariaDB one with the empty map. -/
theorem ValidateProvisionParams_map_on_error_witness :
    (sampleGeneric "inst-1").ValidateProvisionParams samplePackage ⟨false⟩
        (.valid (.array [.string "tls"]))
      = .returned (none, some (.unmarshalTypeError "array" mapTypeName))
      ∧ (sampleMariadb "inst-1" (fixedStore (.ok []))).ValidateProvisionParams ⟨false⟩
          (.valid (.array [.string "tls"]))
        = .returned (some [], some
            (Errorf_w "cannot unmarshal parameters: " (.unmarshalTypeError "array" mapTypeName)))
      ∧ (some [] : GoMap) = (Unmarshal (.valid (.array [.string "tls"])) (some [])).1 :=
  ⟨rfl, rfl,
    ((ValidateProvisionParams_map_on_error samplePackage
      (sampleMariadb "inst-1" (fixedStore (.ok []))) (sampleGeneric "inst-1") ⟨false⟩
      (.valid (.array [.string "tls"])) (some [])
      (Errorf_w "cannot unmarshal parameters: " (.unmarshalTypeError "array" mapTypeName))).2
      rfl).1⟩

/-- C16, as stated, fails: on the document `{"size": 2, "replicas": 1e999}` the
MariaDB binder returns an error together with a map that is not empty: it holds the
member `size`, decoded before the number that is outside the range of `float64`. -/
theorem ValidateProvisionParams_partial_map_on_error :
    ∃ (es : Entries) (err : GoError),
      (sampleMariadb "inst-1" (fixedStore (.ok []))).ValidateProvisionParams ⟨false⟩
          (.valid (.object [("size", .number "2"), ("replicas", .number "1e999")]))
        = .returned (some es, some err)
      ∧ es.get? "size" = some (.float64 "2")
      ∧ es ≠ [] :=
  ⟨(objectInterface [] [("size", .number "2"), ("replicas", .number "1e999")]).1, _,
    rfl, rfl, fun h => nomatch h⟩

/-! ## Lemmas on re-encoding -/

theorem Entries.set_of_not_hasKey (es : Entries) (k : String) (v : GoAny)
    (h : es.hasKey k = false) : es.set k v = es ++ [(k, v)] := by
  induction es with
  | nil => rfl
  | cons e rest ih =>
      obtain ⟨k', v'⟩ := e
      simp only [Entries.hasKey, List.any_cons, Bool.or_eq_false_iff, beq_eq_false_iff_ne,
        ne_eq] at h
      have ih' := ih (by simpa [Entries.hasKey] using h.2)
      simp [Entries.set, h.1, ih']

theorem Entries.hasKey_set (es : Entries) (k k' : String) (v : GoAny) :
    (es.set k v).hasKey k' = (es.hasKey k' || k == k') := by
  induction es with
  | nil => simp [Entries.set, Entries.hasKey]
  | cons e rest ih =>
      obtain ⟨k₀, v₀⟩ := e
      simp only [Entries.hasKey, List.any_cons] at ih ⊢
      by_cases h : k₀ = k
      · subst h
        simp only [Entries.set, if_true, List.any_cons]
        cases hk : (k₀ == k') <;> simp
      · simp only [Entries.set, h, if_false, List.any_cons, ih, Bool.or_assoc]

theorem Entries.hasKey_append (a b : Entries) (k : String) :
    (a ++ b).hasKey k = (a.hasKey k || b.hasKey k) := by
  simp [Entries.hasKey, List.any_append]

theorem entriesDecodable_set (es : Entries) (k : String) (v : GoAny)
    (hes : entriesDecodable es = true) (hv : v.decodable = true) :
    entriesDecodable (es.set k v) = true := by
  induction es with
  | nil => simp [Entries.set, entriesDecodable, hv]
  | cons e rest ih =>
      obtain ⟨k', v'⟩ := e
      simp only [entriesDecodable, Bool.and_eq_true, Bool.not_eq_true'] at hes
      obtain ⟨⟨hv', hnot⟩, hrest⟩ := hes
      by_cases h : k' = k
      · subst h
        simp [Entries.set, entriesDecodable, hv, hnot, hrest]
      · have hkey : Entries.hasKey (Entries.set rest k v) k' = false := by
          rw [Entries.hasKey_set]
          have : Entries.hasKey rest k' = false := hnot
          simp [this, Ne.symm h]
        have hkey' : List.any (Entries.set rest k v) (fun e => e.1 == k') = false := hkey
        simp only [Entries.set, h, if_false, entriesDecodable, hv', hkey', ih hrest,
          Bool.not_false, Bool.and_self]

theorem entriesDecodable_get? (es : Entries) (k : String) (v : GoAny)
    (hes : entriesDecodable es = true) (h : es.get? k = some v) : v.decodable = true := by
  induction es with
  | nil => simp [Entries.get?] at h
  | cons e rest ih =>
      obtain ⟨k', v'⟩ := e
      simp only [entriesDecodable, Bool.and_eq_true, Bool.not_eq_true'] at hes
      by_cases hk : k' = k
      · simp only [Entries.get?, hk, if_true, Option.some.injEq] at h
        rw [← h]
        exact hes.1.1
      · simp only [Entries.get?, hk, if_false] at h
        exact ih hes.2 h

theorem GoMap.index_decodable (es : Entries) (k : String)
    (hes : entriesDecodable es = true) : (GoMap.index (some es) k).decodable = true := by
  simp only [GoMap.index]
  cases h : es.get? k with
  | none => rfl
  | some v => exact entriesDecodable_get? es k v hes h

mutual
theorem valueInterface_decodable (x : JSON) : (valueInterface x).1.decodable = true := by
  cases x with
  | null => rfl
  | bool b => rfl
  | number lit =>
      by_cases h : parseFloatOk lit = true <;> simp [valueInterface, GoAny.decodable, h]
  | string str => rfl
  | array elems =>
      simpa [valueInterface, GoAny.decodable] using arrayInterface_decodable elems
  | object members =>
      simpa [valueInterface, GoAny.decodable] using objectInterface_decodable [] members rfl
theorem arrayInterface_decodable (xs : List JSON) :
    elemsDecodable (arrayInterface xs).1 = true := by
  cases xs with
  | nil => rfl
  | cons x rest =>
      simp [arrayInterface, elemsDecodable, valueInterface_decodable x,
        arrayInterface_decodable rest]
theorem objectInterface_decodable (m : Entries) (members : List (String × JSON))
    (hm : entriesDecodable m = true) :
    entriesDecodable (objectInterface m members).1 = true := by
  cases members with
  | nil => simpa [objectInterface] using hm
  | cons e rest =>
      obtain ⟨k, x⟩ := e
      simp only [objectInterface]
      exact objectInterface_decodable (m.set k (valueInterface x).1) rest
        (entriesDecodable_set m k _ hm (valueInterface_decodable x))
end

mutual
theorem valueInterface_marshalValue (v : GoAny) (hv : v.decodable = true) :
    valueInterface (marshalValue v) = (v, none) := by
  cases v with
  | nil => rfl
  | bool b => rfl
  | float64 lit =>
      simp only [GoAny.decodable] at hv
      simp [marshalValue, valueInterface, hv]
  | string str => rfl
  | slice elems =>
      simp only [GoAny.decodable] at hv
      simp [marshalValue, valueInterface, arrayInterface_marshalElems elems hv]
  | map entries =>
      simp only [GoAny.decodable] at hv
      simp [marshalValue, valueInterface,
        objectInterface_marshalEntries entries hv [] (fun _ _ => rfl)]
theorem arrayInterface_marshalElems (vs : List GoAny) (hvs : elemsDecodable vs = true) :
    arrayInterface (marshalElems vs) = (vs, none) := by
  cases vs with
  | nil => rfl
  | cons v rest =>
      simp only [elemsDecodable, Bool.and_eq_true] at hvs
      simp [marshalElems, arrayInterface, valueInterface_marshalValue v hvs.1,
        arrayInterface_marshalElems rest hvs.2, firstError]
theorem objectInterface_marshalEntries (es : List (String × GoAny))
    (hes : entriesDecodable es = true) (m : Entries)
    (hm : ∀ e ∈ es, m.hasKey e.1 = false) :
    objectInterface m (marshalEntries es) = (m ++ es, none) := by
  cases es with
  | nil => simp [marshalEntries, objectInterface]
  | cons e rest =>
      obtain ⟨k, v⟩ := e
      simp only [entriesDecodable, Bool.and_eq_true, Bool.not_eq_true'] at hes
      obtain ⟨⟨hv, hnot⟩, hrest⟩ := hes
      have hk : m.hasKey k = false := hm (k, v) (List.mem_cons_self _ _)
      have hm' : ∀ e ∈ rest, (m ++ [(k, v)]).hasKey e.1 = false := by
        intro e he
        rw [Entries.hasKey_append, hm e (List.mem_cons_of_mem _ he)]
        simp only [Entries.hasKey, List.any_cons, List.any_nil, Bool.or_false, Bool.false_or,
          beq_eq_false_iff_ne, ne_eq]
        intro hke
        have : (rest.any fun e => e.1 == k) = true :=
          List.any_eq_true.mpr ⟨e, he, by simp [hke]⟩
        rw [this] at hnot
        exact Bool.noConfusion hnot
      simp [marshalEntries, objectInterface, valueInterface_marshalValue v hv,
        Entries.set_of_not_hasKey m k v hk,
        objectInterface_marshalEntries rest hrest (m ++ [(k, v)]) hm', firstError]
end

theorem Unmarshal_Marshal (out : GoMap) (hout : out.decodable = true) (v : GoMap)
    (hv : v = none ∨ v = some []) : Unmarshal (Marshal out) v = (out, none) := by
  cases out with
  | none => rfl
  | some es =>
      have h := objectInterface_marshalEntries es hout [] (fun _ _ => rfl)
      rcases hv with hv | hv <;> subst hv <;> simp [Marshal, Unmarshal, h]

theorem Unmarshal_decodable (params : RawMessage) (v m : GoMap) (e : Option GoError)
    (hv : v.decodable = true) (h : Unmarshal params v = (m, e)) : m.decodable = true := by
  cases params with
  | invalid msg =>
      simp only [Unmarshal, Prod.mk.injEq] at h
      rw [← h.1]
      exact hv
  | valid doc =>
      cases doc with
      | object members =>
          simp only [Unmarshal, Prod.mk.injEq] at h
          rw [← h.1]
          apply objectInterface_decodable
          cases v with
          | none => rfl
          | some es => exact hv
      | null =>
          simp only [Unmarshal, Prod.mk.injEq] at h
          rw [← h.1]
          rfl
      | bool b =>
          simp only [Unmarshal, Prod.mk.injEq] at h
          rw [← h.1]
          exact hv
      | number lit =>
          simp only [Unmarshal, Prod.mk.injEq] at h
          rw [← h.1]
          exact hv
      | string str =>
          simp only [Unmarshal, Prod.mk.injEq] at h
          rw [← h.1]
          exact hv
      | array elems =>
          simp only [Unmarshal, Prod.mk.injEq] at h
          rw [← h.1]
          exact hv

theorem Entries.set_set (es : Entries) (k : String) (v : GoAny) :
    (es.set k v).set k v = es.set k v := by
  induction es with
  | nil => simp [Entries.set]
  | cons e rest ih =>
      obtain ⟨k', v'⟩ := e
      by_cases h : k' = k
      · simp [Entries.set, h]
      · simp [Entries.set, h, ih]

theorem MariadbServiceBinder.validated_decodable (rsb : MariadbServiceBinder)
    (ctx : Context) (params : RawMessage) (out : GoMap)
    (h : rsb.ValidateProvisionParams ctx params = .returned (out, none)) :
    out.decodable = true ∧ interfaceIsSlice (out.index "tls") = false := by
  unfold MariadbServiceBinder.ValidateProvisionParams at h
  cases hd : Unmarshal params (some []) with
  | mk m e =>
      rw [hd] at h
      cases e with
      | some err => simp at h
      | none =>
          have hm := Unmarshal_decodable params (some []) m none rfl hd
          cases m with
          | none =>
              simp only [GoMap.index, GoAny.isNil, Bool.not_true, Bool.false_and,
                Bool.false_eq_true, if_false, Outcome.returned.injEq, Prod.mk.injEq,
                and_true] at h
              subst h
              exact ⟨rfl, rfl⟩
          | some es =>
              have hes : entriesDecodable es = true := hm
              cases htls : GoMap.index (some es) "tls" with
              | slice elems =>
                  cases elems with
                  | nil =>
                      simp [GoAny.isNil, interfaceIsSlice, GoAny.Len, GoMap.assign, htls] at h
                      subst h
                      exact ⟨entriesDecodable_set es _ _ hes rfl,
                        by simp [GoMap.index, Entries.get?_set_self, interfaceIsSlice]⟩
                  | cons x xs =>
                      simp [GoAny.isNil, interfaceIsSlice, GoAny.Len, GoMap.assign, htls] at h
                      subst h
                      exact ⟨entriesDecodable_set es _ _ hes rfl,
                        by simp [GoMap.index, Entries.get?_set_self, interfaceIsSlice]⟩
              | nil =>
                  simp [GoAny.isNil, htls] at h
                  subst h
                  exact ⟨hes, by rw [htls]; rfl⟩
              | bool b =>
                  simp [GoAny.isNil, interfaceIsSlice, htls] at h
                  subst h
                  exact ⟨hes, by rw [htls]; rfl⟩
              | float64 lit =>
                  simp [GoAny.isNil, interfaceIsSlice, htls] at h
                  subst h
                  exact ⟨hes, by rw [htls]; rfl⟩
              | string str =>
                  simp [GoAny.isNil, interfaceIsSlice, htls] at h
                  subst h
                  exact ⟨hes, by rw [htls]; rfl⟩
              | map entries =>
                  simp [GoAny.isNil, interfaceIsSlice, htls] at h
                  subst h
                  exact ⟨hes, by rw [htls]; rfl⟩

theorem MariadbServiceBinder.validate_reencoded_tls (rsb : MariadbServiceBinder)
    (ctx : Context) (out : GoMap) (hout : out.decodable = true)
    (hslice : interfaceIsSlice (out.index "tls") = false) :
    rsb.ValidateProvisionParams ctx (Marshal out) = .returned (out, none) := by
  unfold MariadbServiceBinder.ValidateProvisionParams
  rw [Unmarshal_Marshal out hout (some []) (Or.inr rfl)]
  simp [hslice]

theorem GenericServiceBinder.validated_shape (K : Package) (g : GenericServiceBinder)
    (ctx : Context) (params : RawMessage) (out : GoMap)
    (h : g.ValidateProvisionParams K ctx params = .returned (out, none)) :
    ∃ es : Entries, entriesDecodable es = true
      ∧ out = some (es.set K.ClusterLabel (GoMap.index (some es) "subdomain")) := by
  unfold GenericServiceBinder.ValidateProvisionParams at h
  cases hd : Unmarshal params none with
  | mk m e =>
      rw [hd] at h
      cases e with
      | some err => simp at h
      | none =>
          have hm := Unmarshal_decodable params none m none rfl hd
          cases m with
          | none => simp [GoMap.assign] at h
          | some es =>
              simp only [GoMap.assign, Outcome.returned.injEq, Prod.mk.injEq, and_true] at h
              exact ⟨es, hm, h.symm⟩

theorem GenericServiceBinder.validate_reencoded_label (K : Package) (g : GenericServiceBinder)
    (ctx : Context) (es : Entries) (hes : entriesDecodable es = true) :
    g.ValidateProvisionParams K ctx
        (Marshal (some (es.set K.ClusterLabel (GoMap.index (some es) "subdomain"))))
      = .returned (some (es.set K.ClusterLabel (GoMap.index (some es) "subdomain")), none) := by
  have hdec : GoMap.decodable
      (some (es.set K.ClusterLabel (GoMap.index (some es) "subdomain"))) = true :=
    entriesDecodable_set es _ _ hes (GoMap.index_decodable es _ hes)
  have hsub : GoMap.index (some (es.set K.ClusterLabel (GoMap.index (some es) "subdomain")))
      "subdomain" = GoMap.index (some es) "subdomain" := by
    by_cases hk : K.ClusterLabel = "subdomain"
    · simp only [GoMap.index, hk, Entries.get?_set_self, Option.getD_some]
    · simp only [GoMap.index, Entries.get?_set_other es _ _ _ hk]
  unfold GenericServiceBinder.ValidateProvisionParams
  rw [Unmarshal_Marshal _ hdec none (Or.inl rfl)]
  simp only [GoMap.assign, hsub, Entries.set_set]

/-! ## C11: validating twice -/

/-- C11: for every raw input on which `ValidateProvisionParams` succeeds, with the
map `out`, validating the re-encoded `out` succeeds again and returns `out` itself:
the MariaDB binder's `tls` and the generic binder's cluster label, like every other
field, are those of the first call. -/
theorem ValidateProvisionParams_idempotent (K : Package) (rsb : MariadbServiceBinder)
    (g : GenericServiceBinder) (ctx : Context) (params : RawMessage) (out : GoMap) :
    (rsb.ValidateProvisionParams ctx params = .returned (out, none) →
        ∃ again, rsb.ValidateProvisionParams ctx (Marshal out) = .returned (again, none)
          ∧ again.index "tls" = out.index "tls"
          ∧ again = out)
      ∧ (g.ValidateProvisionParams K ctx params = .returned (out, none) →
        ∃ again, g.ValidateProvisionParams K ctx (Marshal out) = .returned (again, none)
          ∧ again.index K.ClusterLabel = out.index K.ClusterLabel
          ∧ again = out) := by
  constructor
  · intro h
    obtain ⟨hdec, hslice⟩ := MariadbServiceBinder.validated_decodable rsb ctx params out h
    exact ⟨out, MariadbServiceBinder.validate_reencoded_tls rsb ctx out hdec hslice, rfl, rfl⟩
  · intro h
    obtain ⟨es, hes, hout⟩ := GenericServiceBinder.validated_shape K g ctx params out h
    subst hout
    exact ⟨_, GenericServiceBinder.validate_reencoded_label K g ctx es hes, rfl, rfl⟩

/-- C11, witness: the MariaDB binder turns `{"tls": ["on"]}` into the map with `tls`
true, and the generic binder `{"subdomain": "foo"}` into the map with the cluster
label `foo`; each returns the same map for the re-encoded one. -/
theorem ValidateProvisionParams_idempotent_witness :
    (sampleMariadb "inst-1" (fixedStore (.ok []))).ValidateProvisionParams ⟨false⟩
        (Marshal (some [("tls", .bool true)]))
      = .returned (some [("tls", .bool true)], none)
      ∧ (sampleGeneric "inst-1").ValidateProvisionParams samplePackage ⟨false⟩
          (Marshal (some [("subdomain", .string "foo"),
            ("service.syn.tools/cluster", .string "foo")]))
        = .returned (some [("subdomain", .string "foo"),
            ("service.syn.tools/cluster", .string "foo")], none) := by
  constructor
  · obtain ⟨again, h, -, rfl⟩ := (ValidateProvisionParams_idempotent samplePackage
      (sampleMariadb "inst-1" (fixedStore (.ok []))) (sampleGeneric "inst-1") ⟨false⟩
      (.valid (.object [("tls", .array [.string "on"])])) (some [("tls", .bool true)])).1 rfl
    exact h
  · obtain ⟨again, h, -, rfl⟩ := (ValidateProvisionParams_idempotent samplePackage
      (sampleMariadb "inst-1" (fixedStore (.ok []))) (sampleGeneric "inst-1") ⟨false⟩
      (.valid (.object [("subdomain", .string "foo")]))
      (some [("subdomain", .string "foo"), ("service.syn.tools/cluster", .string "foo")])).2 rfl
    exact h

end crossplane
